import Mathlib

/-!
# Verification of the LIMEN skeletal motion encoding subsystem

Shallow embedding of the TypeScript sources into Lean 4, with JavaScript
numbers idealised as exact rationals (ℚ).  Conventions used throughout:

* JS `number` is modelled as `ℚ`.  Where the source explicitly tests
  `Number.isFinite` on data that can genuinely be non-finite (the meaning
  confidence, the channel serializer) we use the `ENum` type, which adds
  the non-finite IEEE values to `ℚ`.
* Transcendental library functions (`Math.sqrt`, `Math.sin`, `Math.cos`,
  `Math.asin`, `Math.atan2`, `Math.PI`) have no exact rational meaning, so
  every embedded definition that calls them takes a bundle `TransFns` of
  rational-valued stand-ins.  Theorems either hold for all bundles or
  state the local correctness facts they need about the bundle as
  hypotheses.  `ratFns` is a concrete executable bundle (its `sqrt` is
  exact on perfect squares) used for witnesses and counterexamples.
* Division by zero in ℚ yields 0 (Lean convention), whereas JS yields
  NaN/Infinity; no theorem below depends on a case where this differs.
* JS objects (`Record<string, Joint>`) are association lists in insertion
  order; `Object.entries` / `Object.keys` iterate that order.
* `Array.prototype.sort` with comparator `(a, b) => a.t - b.t` is a stable
  sort; it is modelled by `List.insertionSort`, which is stable.
* Record fields that are passed through operations unchanged and never
  inspected by any claim (`schemaVersion`, `jointSet`, `coordinateSpace`,
  `meta`, per-joint `visibility`/`confidence`, per-frame
  `overallConfidence`) are omitted from the model.  A missing `z` on a
  joint is only ever read through `?? 0` / treated as depth 0 in the
  sources, so `z` is modelled as a plain `ℚ` that is 0 when absent.
-/

namespace Limen

/-- JS numbers including the non-finite IEEE values, used where the source
code tests `Number.isFinite`. -/
inductive ENum where
  | fin (q : ℚ)
  | nan
  | posInf
  | negInf
deriving DecidableEq, Repr

/-- `Number.isFinite`. -/
def ENum.isFinite : ENum → Bool
  | .fin _ => true
  | _ => false

/-- JS `x >= t` for a possibly non-finite `x` against a finite threshold:
false when `x` is NaN, true for `+Infinity`. -/
def ENum.geQ : ENum → ℚ → Bool
  | .fin q, t => decide (t ≤ q)
  | .posInf, _ => true
  | _, _ => false

/-- A landmark point (`types.ts` `Joint`): `x`, `y` and optional relative
depth `z` (0 when absent). -/
structure Joint where
  x : ℚ
  y : ℚ
  z : ℚ
deriving DecidableEq, Repr

/-- One time-stamped frame of a motion clip (`types.ts` `SkeletonFrame`). -/
structure Frame where
  t : ℚ
  joints : List (String × Joint)
deriving DecidableEq, Repr

/-- A motion clip (`types.ts` `Skeleton`); only the fields the verified
operations inspect are modelled. -/
structure Skeleton where
  fps : Option ℚ
  frames : List Frame
deriving DecidableEq, Repr

/-- `MeaningParams` from `types.ts`. -/
structure MeaningParams where
  dirX : ℚ
  dirY : ℚ
  dirZ : ℚ
  intensity : ℚ
  tempo : ℚ
  politeness : ℚ
deriving DecidableEq, Repr

/-- A meaning estimate (`types.ts` `Meaning`): only the fields read by
`canProceedMeaning` are modelled; `confidence` is a raw JS number. -/
structure Meaning where
  intent : String
  confidence : ENum
deriving DecidableEq, Repr

/-- The rational stand-ins for the `Math` transcendental functions. -/
structure TransFns where
  sqrt : ℚ → ℚ
  sin : ℚ → ℚ
  cos : ℚ → ℚ
  asin : ℚ → ℚ
  atan2 : ℚ → ℚ → ℚ
  pi : ℚ

/-- Largest `k` with `k * k ≤ n`, by structural linear search (chosen so
that kernel reduction is possible, unlike `Nat.sqrt`). -/
def natSqrtLin (n : ℕ) : ℕ :=
  (List.range (n + 1)).foldl (fun acc k => if k * k ≤ n then k else acc) 0

/-- An executable square root stand-in: exact on perfect squares.  Used
only to instantiate theorems at concrete inputs. -/
def ratSqrt (x : ℚ) : ℚ := (natSqrtLin x.num.toNat : ℚ) / (natSqrtLin x.den : ℚ)

/-- Concrete `TransFns` bundle for witnesses and counterexamples. -/
def ratFns : TransFns where
  sqrt := ratSqrt
  sin := fun _ => 0
  cos := fun _ => 1
  asin := fun _ => 0
  atan2 := fun _ _ => 0
  pi := 355 / 113

/-- Shared helper, identical in `clip.ts`, `part_006`, `part_007`,
`part_008`: `Math.max(lo, Math.min(hi, v))`. -/
def clamp (v lo hi : ℚ) : ℚ := max lo (min hi v)

/-- `lerp` from `part_006`. -/
def lerp (a b t : ℚ) : ℚ := a + (b - a) * t

/-- Association-list lookup modelling `frame.joints[key]` (JS records have
unique keys; lookup takes the first binding). -/
def Frame.getJ (f : Frame) (key : String) : Option Joint :=
  (f.joints.find? (fun kv => kv.1 = key)).map (fun kv => kv.2)

/-- `get` from `part_006` / `getJoint` from `part_007`: the
`Number.isFinite` guards are vacuous over ℚ. -/
def getF (f : Frame) (key : String) : Option Joint := f.getJ key

/-- `mid` from `part_006`/`part_007`. -/
def midJ (a b : Joint) : Joint :=
  ⟨(a.x + b.x) / 2, (a.y + b.y) / 2, (a.z + b.z) / 2⟩

/-- `poseKey` (shared): prefix a pose landmark name. -/
def poseKey (name : String) : String := "POSE_" ++ name

/-- Squared euclidean distance between two joints (used to state distance
comparisons without square roots). -/
def sqDistJ (a b : Joint) : ℚ :=
  (a.x - b.x) ^ 2 + (a.y - b.y) ^ 2 + (a.z - b.z) ^ 2

/-- Frame ordering used by every `sort((a, b) => a.t - b.t)` in the
sources. -/
def frameLE (a b : Frame) : Prop := a.t ≤ b.t

instance : DecidableRel frameLE := fun a b => inferInstanceAs (Decidable (a.t ≤ b.t))

instance : IsTotal Frame frameLE := ⟨fun a b => le_total a.t b.t⟩

instance : IsTrans Frame frameLE := ⟨fun _ _ _ h1 h2 => le_trans h1 h2⟩

/-- `[...frames].sort((a, b) => a.t - b.t)` (stable). -/
def sortFrames (l : List Frame) : List Frame := l.insertionSort frameLE

/-- `rootOf` from `part_006`: hip midpoint, else shoulder midpoint, else
the first joint, else the image center. -/
def rootOf (frame : Frame) : Joint :=
  match getF frame (poseKey "LEFT_HIP"), getF frame (poseKey "RIGHT_HIP") with
  | some lh, some rh => midJ lh rh
  | _, _ =>
    match getF frame (poseKey "LEFT_SHOULDER"), getF frame (poseKey "RIGHT_SHOULDER") with
    | some ls, some rs => midJ ls rs
    | _, _ =>
      match frame.joints.head? with
      | some kv => kv.2
      | none => ⟨1/2, 1/2, 0⟩

/-- `rotate2D` from `part_006`: planar rotation of `p` about `origin`. -/
def rotate2D (F : TransFns) (p origin : Joint) (angleRad : ℚ) : Joint :=
  let s := F.sin angleRad
  let c := F.cos angleRad
  let x := p.x - origin.x
  let y := p.y - origin.y
  ⟨origin.x + x * c - y * s, origin.y + x * s + y * c, p.z⟩

/-- The `while (j + 1 < frames.length && frames[j + 1].t < t) j++` pointer
advance in `resampleSkeleton`; the fuel is `frames.length`, which bounds
the number of loop iterations. -/
def advancePtr (frames : List Frame) : ℕ → ℚ → ℕ → ℕ
  | 0, _, j => j
  | fuel + 1, t, j =>
    match frames.get? (j + 1) with
    | some fr => if fr.t < t then advancePtr frames fuel t (j + 1) else j
    | none => j

/-- Default frame used only behind bounds that always hold. -/
def dfltFrame : Frame := ⟨0, []⟩

/-- One interpolated output frame of `resampleSkeleton` at time `t`, built
from bracketing frames `a` and `b`. -/
def interpFrame (keys : List String) (a b : Frame) (t : ℚ) : Frame :=
  let ta := a.t
  let tb := b.t
  let w := if ta < tb then (t - ta) / (tb - ta) else 0
  let joints := keys.filterMap (fun k =>
    match a.getJ k, b.getJ k with
    | some ja, some jb =>
      some (k, (⟨ja.x + (jb.x - ja.x) * w, ja.y + (jb.y - ja.y) * w,
        ja.z + (jb.z - ja.z) * w⟩ : Joint))
    | _, _ => none)
  ⟨t, joints⟩

/-- The main loop of `resampleSkeleton`: `rem` counts the output frames
still to emit, `i` is the loop index, `j` the persistent search pointer. -/
def resampleGo (frames : List Frame) (keys : List String) (t0 dur cden : ℚ) :
    ℕ → ℕ → ℕ → List Frame
  | _, _, 0 => []
  | j, i, rem + 1 =>
    let t := t0 + ((i : ℚ) / cden) * dur
    let j2 := advancePtr frames frames.length t j
    let a := (frames.get? j2).getD dfltFrame
    let b := (frames.get? (min (j2 + 1) (frames.length - 1))).getD dfltFrame
    interpFrame keys a b t :: resampleGo frames keys t0 dur cden j2 (i + 1) rem

/-- `resampleSkeleton` from `part_006`: sort by `t`, then emit
`max 1 (⌊dur·fpsOut⌋ + 1)` evenly spaced frames, linearly interpolating
each joint between the bracketing original frames. -/
def resampleSkeleton (input : Skeleton) (fpsOut : ℚ) : Skeleton :=
  let frames := sortFrames input.frames
  match frames with
  | [] => { input with fps := some fpsOut, frames := [] }
  | f0 :: _ =>
    let t0 := f0.t
    let t1 := (frames.getLastD f0).t
    let dur := max 0 (t1 - t0)
    let count := (max 1 (⌊dur * fpsOut⌋ + 1)).toNat
    let keys := f0.joints.map (fun kv => kv.1)
    let out := resampleGo frames keys t0 dur ((count : ℚ) - 1) 0 0 count
    { input with fps := some fpsOut, frames := out }

/-- The tempo factor of `reconstructFromTemplate`:
`lerp(0.6, 1.4, clamp(tempo, 0, 1))`. -/
def tempoFactorOf (tempo : ℚ) : ℚ := lerp 0.6 1.4 (clamp tempo 0 1)

/-- The intensity factor of `reconstructFromTemplate`:
`lerp(0.7, 1.35, clamp(intensity, 0, 1))`. -/
def intensityFactorOf (intensity : ℚ) : ℚ := lerp 0.7 1.35 (clamp intensity 0 1)

/-- The per-joint spatial transform applied by `reconstructFromTemplate`
inside its `frames1` map: radial intensity scaling about the frame root,
planar rotation about the root, then the direction shift. -/
def applyMeaningToJoint (F : TransFns) (intensityFactor rotationRad shiftX shiftY : ℚ)
    (r j : Joint) : Joint :=
  let scaled : Joint := ⟨r.x + (j.x - r.x) * intensityFactor,
    r.y + (j.y - r.y) * intensityFactor, j.z⟩
  let rotated := rotate2D F scaled r rotationRad
  ⟨rotated.x + shiftX, rotated.y + shiftY, rotated.z⟩

/-- Result record of `reconstructFromTemplate`. -/
structure ReconstructResult where
  skeleton : Skeleton
  tempoFactor : ℚ
  intensityFactor : ℚ
  rotationRad : ℚ
  shiftX : ℚ
  shiftY : ℚ
  shiftZ : ℚ
deriving DecidableEq, Repr

/-- `reconstructFromTemplate` from `part_006` (Stage5): apply Meaning
params to a template clip. -/
def reconstructFromTemplate (F : TransFns) (templateClip : Skeleton)
    (params : MeaningParams) : ReconstructResult :=
  let fpsOut : ℚ := 30
  let tempoFactor := tempoFactorOf params.tempo
  let intensityFactor := intensityFactorOf params.intensity
  let dx := params.dirX
  let dy := params.dirY
  let rotationRad := clamp dx (-1) 1 * 0.25
  let shiftX := clamp dx (-0.2) 0.2 * 0.08
  let shiftY := clamp dy (-0.2) 0.2 * 0.08
  let frames0 := sortFrames templateClip.frames
  match frames0 with
  | [] =>
    { skeleton := { templateClip with fps := some fpsOut, frames := [] },
      tempoFactor := tempoFactor, intensityFactor := intensityFactor,
      rotationRad := rotationRad, shiftX := shiftX, shiftY := shiftY, shiftZ := 0 }
  | f1 :: _ =>
    let frames1 := frames0.map (fun f =>
      let r := rootOf f
      { f with joints := f.joints.map (fun kv : String × Joint =>
          (kv.1, applyMeaningToJoint F intensityFactor rotationRad shiftX shiftY r kv.2)) })
    let t0 := f1.t
    let frames2 := frames1.map (fun f => { f with t := t0 + (f.t - t0) / tempoFactor })
    let out := resampleSkeleton { templateClip with frames := frames2 } fpsOut
    { skeleton := out, tempoFactor := tempoFactor, intensityFactor := intensityFactor,
      rotationRad := rotationRad, shiftX := shiftX, shiftY := shiftY, shiftZ := 0 }

/-- `canProceedMeaning` from `part_006` (default `minConfidence` is
`0.55`). -/
def canProceedMeaning (m : Option Meaning) (minConfidence : ℚ) : Bool :=
  match m with
  | none => false
  | some mm =>
    if mm.intent = "unknown" then false
    else mm.confidence.isFinite && mm.confidence.geQ minConfidence

/-! ## Motion feature summarizer (`part_007`) -/

/-- The `motion` part of `FeatureSummary` (`part_007`); `netDisp` is
inlined as three fields. -/
structure FeatMotion where
  durationSec : ℚ
  framesN : ℕ
  avgSpeed : ℚ
  avgDisp : ℚ
  speedNorm : ℚ
  dispNorm : ℚ
  netX : ℚ
  netY : ℚ
  netZ : ℚ
deriving DecidableEq, Repr

/-- The `hands` part of `FeatureSummary`; the source field names carry a
`Ratio` suffix, dropped here. -/
structure FeatHands where
  leftDetected : ℚ
  rightDetected : ℚ
  bothHands : ℚ
deriving DecidableEq, Repr

/-- `FeatureSummary` from `part_007`. -/
structure FeatureSummary where
  motion : FeatMotion
  hands : FeatHands
deriving DecidableEq, Repr

/-- Mutable state of the `extractFeatures` loop. -/
structure FeatAcc where
  leftOk : ℕ
  rightOk : ℕ
  bothOk : ℕ
  speedSum : ℚ
  speedCount : ℕ
  dispSum : ℚ
  dispCount : ℕ
  root0 : Option Joint
  root1 : Option Joint
deriving Repr

/-- `safeDelta` from `part_007` (the `ok` flag is the `some` case). -/
def safeDelta (a b : Option Joint) : Option (ℚ × ℚ × ℚ) :=
  match a, b with
  | some ja, some jb => some (jb.x - ja.x, jb.y - ja.y, jb.z - ja.z)
  | _, _ => none

/-- `lh && rh ? mid(lh, rh) : null` — the per-frame root of the
`extractFeatures` loop. -/
def hipRootOf (f : Frame) : Option Joint :=
  match getF f (poseKey "LEFT_HIP"), getF f (poseKey "RIGHT_HIP") with
  | some a, some b => some (midJ a b)
  | _, _ => none

/-- `root0 && root1 ? {x: root1.x - root0.x, ...} : {0,0,0}` — the net
displacement of `extractFeatures`. -/
def netOf : Option Joint → Option Joint → Joint
  | some a, some b => ⟨b.x - a.x, b.y - a.y, b.z - a.z⟩
  | _, _ => ⟨0, 0, 0⟩

/-- `len2` from `part_007`. -/
def len2 (dx dy dz : ℚ) : ℚ := dx * dx + dy * dy + dz * dz

/-- One iteration of the `extractFeatures` loop; the carried `Option
Frame` is the previous frame (`frames[i-1]`). -/
def featStep (F : TransFns) (n : ℕ) (st : Option Frame × FeatAcc) (p : ℕ × Frame) :
    Option Frame × FeatAcc :=
  let i := p.1
  let f := p.2
  let acc := st.2
  let lw := getF f (poseKey "LEFT_WRIST")
  let rw := getF f (poseKey "RIGHT_WRIST")
  let root := hipRootOf f
  let acc :=
    { acc with
      leftOk := acc.leftOk + (if lw.isSome then 1 else 0),
      rightOk := acc.rightOk + (if rw.isSome then 1 else 0),
      bothOk := acc.bothOk + (if lw.isSome && rw.isSome then 1 else 0),
      root0 := if i = 0 then root else acc.root0,
      root1 := if i = n - 1 then root else acc.root1 }
  if i = 0 then (some f, acc)
  else
    let prev := st.1.getD dfltFrame
    let dt := max (1/1000) (f.t - prev.t)
    let dl := safeDelta (getF prev (poseKey "LEFT_WRIST")) lw
    let dr := safeDelta (getF prev (poseKey "RIGHT_WRIST")) rw
    let localDisp :=
      (match dl with
        | some d => F.sqrt (len2 d.1 d.2.1 d.2.2)
        | none => 0) +
      (match dr with
        | some d => F.sqrt (len2 d.1 d.2.1 d.2.2)
        | none => 0)
    let localCnt : ℕ :=
      (if dl.isSome then 1 else 0) + (if dr.isSome then 1 else 0)
    let acc :=
      if 0 < localCnt then
        let avg := localDisp / (localCnt : ℚ)
        { acc with
          speedSum := acc.speedSum + avg / dt, speedCount := acc.speedCount + 1,
          dispSum := acc.dispSum + avg, dispCount := acc.dispCount + 1 }
      else acc
    (some f, acc)

/-- `extractFeatures` from `part_007` (D4-2): fixed-shape statistical
summary of a clip. -/
def extractFeatures (F : TransFns) (input : Skeleton) : FeatureSummary :=
  let frames := sortFrames input.frames
  let n := frames.length
  let durationSec :=
    if 2 ≤ n then max 0 (((frames.getLastD dfltFrame).t) - ((frames.headD dfltFrame).t))
    else 0
  let st := frames.enum.foldl (featStep F n)
    (none, ⟨0, 0, 0, 0, 0, 0, 0, none, none⟩)
  let acc := st.2
  let avgSpeed := if acc.speedCount ≠ 0 then acc.speedSum / (acc.speedCount : ℚ) else 0
  let avgDisp := if acc.dispCount ≠ 0 then acc.dispSum / (acc.dispCount : ℚ) else 0
  let speedNorm := clamp (avgSpeed / 1.2) 0 1
  let dispNorm := clamp (avgDisp / 0.08) 0 1
  let net : Joint := netOf acc.root0 acc.root1
  { motion :=
      { durationSec := durationSec, framesN := n, avgSpeed := avgSpeed,
        avgDisp := avgDisp, speedNorm := speedNorm, dispNorm := dispNorm,
        netX := net.x, netY := net.y, netZ := net.z },
    hands :=
      { leftDetected := if n ≠ 0 then (acc.leftOk : ℚ) / (n : ℚ) else 0,
        rightDetected := if n ≠ 0 then (acc.rightOk : ℚ) / (n : ℚ) else 0,
        bothHands := if n ≠ 0 then (acc.bothOk : ℚ) / (n : ℚ) else 0 } }

/-! ## Clip slicer (`clip.ts`) -/

/-- The `for (const f of sorted) if (f.t <= bound) x = f` selection loops
inside the `sliceSkeleton` fallback, as a fold. -/
def lastLeFold (l : List Frame) (bound : ℚ) (init : Frame) : Frame :=
  l.foldl (fun acc f => if f.t ≤ bound then f else acc) init

/-- Helper for `dedupByT`. -/
def dedupByTAux : List ℚ → List Frame → List Frame
  | _, [] => []
  | seen, f :: rest =>
    if f.t ∈ seen then dedupByTAux seen rest
    else f :: dedupByTAux (f.t :: seen) rest

/-- `[a, b].filter((x, i, arr) => arr.findIndex((y) => y.t === x.t) === i)`:
keep the first frame of each timestamp. -/
def dedupByT (l : List Frame) : List Frame := dedupByTAux [] l

/-- `sliceSkeleton` from `clip.ts` (the `meta.clip` traceability record is
not modelled). -/
def sliceSkeleton (input : Skeleton) (startSec endSec : ℚ) : Skeleton :=
  let s := max 0 startSec
  let e := max s endSec
  let matched := input.frames.filter (fun f => decide (s ≤ f.t ∧ f.t ≤ e))
  let use :=
    if matched.isEmpty && !input.frames.isEmpty then
      match sortFrames input.frames with
      | [] => []
      | f0 :: rest =>
        let sorted := f0 :: rest
        let a := lastLeFold sorted s f0
        let b := lastLeFold sorted e (sorted.getLastD f0)
        dedupByT [a, b]
    else matched
  let baseT := match use.head? with
    | some f => f.t
    | none => s
  let outFrames := use.map (fun f => { f with t := max 0 (f.t - baseT) })
  { input with frames := outFrames }

/-! ## Skeletal animation encoder (`part_008`) -/

/-- 3D vector (`part_008` `Vec3`). -/
structure Vec3 where
  x : ℚ
  y : ℚ
  z : ℚ
deriving DecidableEq, Repr

/-- `v()` — the zero vector. -/
def v0 : Vec3 := ⟨0, 0, 0⟩

/-- `add`. -/
def vadd (a b : Vec3) : Vec3 := ⟨a.x + b.x, a.y + b.y, a.z + b.z⟩

/-- `sub`. -/
def vsub (a b : Vec3) : Vec3 := ⟨a.x - b.x, a.y - b.y, a.z - b.z⟩

/-- `mul`. -/
def vmul (a : Vec3) (s : ℚ) : Vec3 := ⟨a.x * s, a.y * s, a.z * s⟩

/-- `dot`. -/
def vdot (a b : Vec3) : ℚ := a.x * b.x + a.y * b.y + a.z * b.z

/-- `cross`. -/
def vcross (a b : Vec3) : Vec3 :=
  ⟨a.y * b.z - a.z * b.y, a.z * b.x - a.x * b.z, a.x * b.y - a.y * b.x⟩

/-- `len`. -/
def vlen (F : TransFns) (a : Vec3) : ℚ := F.sqrt (vdot a a)

/-- `norm` (the `Number.isFinite` guard is vacuous over ℚ). -/
def vnorm (F : TransFns) (a : Vec3) : Vec3 :=
  let l := vlen F a
  if l < 1/100000000 then v0 else vmul a (1/l)

/-- Quaternion (`part_008` `Quat`). -/
structure Quat where
  x : ℚ
  y : ℚ
  z : ℚ
  w : ℚ
deriving DecidableEq, Repr

/-- `q()` — the identity quaternion. -/
def qid : Quat := ⟨0, 0, 0, 1⟩

/-- `qNormalize`. -/
def qNormalize (F : TransFns) (q0 : Quat) : Quat :=
  let l := F.sqrt (q0.x * q0.x + q0.y * q0.y + q0.z * q0.z + q0.w * q0.w)
  if l < 1/100000000 then qid else ⟨q0.x / l, q0.y / l, q0.z / l, q0.w / l⟩

/-- `qMul`. -/
def qMul (a b : Quat) : Quat :=
  ⟨a.w * b.x + a.x * b.w + a.y * b.z - a.z * b.y,
   a.w * b.y - a.x * b.z + a.y * b.w + a.z * b.x,
   a.w * b.z + a.x * b.y - a.y * b.x + a.z * b.w,
   a.w * b.w - a.x * b.x - a.y * b.y - a.z * b.z⟩

/-- `qInv` (unit quaternion inverse = conjugate). -/
def qInv (a : Quat) : Quat := ⟨-a.x, -a.y, -a.z, a.w⟩

/-- `qRotate`. -/
def qRotate (a : Quat) (p : Vec3) : Vec3 :=
  let r := qMul (qMul a ⟨p.x, p.y, p.z, 0⟩) (qInv a)
  ⟨r.x, r.y, r.z⟩

/-- `quatFromTwoVectors`: minimal rotation mapping direction `a0` onto
`b0`. -/
def quatFromTwoVectors (F : TransFns) (a0 b0 : Vec3) : Quat :=
  let a := vnorm F a0
  let b := vnorm F b0
  let d := vdot a b
  if 999999/1000000 < d then qid
  else if d < -(999999/1000000) then
    let axis := vnorm F (if |a.x| < 1/10 then vcross a ⟨1, 0, 0⟩ else vcross a ⟨0, 1, 0⟩)
    qNormalize F ⟨axis.x, axis.y, axis.z, 0⟩
  else
    let axis := vcross a b
    qNormalize F ⟨axis.x, axis.y, axis.z, 1 + d⟩

/-- `rad2deg`: `(r * 180) / Math.PI`. -/
def rad2deg (F : TransFns) (r : ℚ) : ℚ := r * 180 / F.pi

/-- `quatToEulerZXY`: Euler angles in degrees for BVH channel order
Zrotation Xrotation Yrotation. -/
def quatToEulerZXY (F : TransFns) (q0 : Quat) : Vec3 :=
  let qn := qNormalize F q0
  let x := qn.x
  let y := qn.y
  let z := qn.z
  let w := qn.w
  let m00 := 1 - 2 * (y * y + z * z)
  let m01 := 2 * (x * y - z * w)
  let m10 := 2 * (x * y + z * w)
  let m11 := 1 - 2 * (x * x + z * z)
  let m20 := 2 * (x * z - y * w)
  let m21 := 2 * (y * z + x * w)
  let m22 := 1 - 2 * (x * x + y * y)
  let xRad := F.asin (clamp m21 (-1) 1)
  let cx := F.cos xRad
  let zRad := if 1/1000000 < |cx| then F.atan2 (-m01) m11 else F.atan2 m10 m00
  let yRad := if 1/1000000 < |cx| then F.atan2 (-m20) m22 else 0
  ⟨rad2deg F xRad, rad2deg F yRad, rad2deg F zRad⟩

/-- Result of `buildBasis`. -/
structure BasisR where
  bx : Vec3
  byv : Vec3
  bz : Vec3
  ok : Bool
deriving DecidableEq, Repr

/-- `buildBasis`: orthonormal basis from a primary axis and a pole axis
via Gram-Schmidt. -/
def buildBasis (F : TransFns) (a0 b0 : Vec3) : BasisR :=
  let x := vnorm F a0
  if vlen F x < 1/1000000 then ⟨v0, v0, v0, false⟩
  else
    let bProj := vmul x (vdot b0 x)
    let y := vnorm F (vsub b0 bProj)
    if vlen F y < 1/1000000 then ⟨x, v0, v0, false⟩
    else
      let z := vnorm F (vcross x y)
      let y2 := vcross z x
      ⟨x, y2, z, true⟩

/-- `quatFromMat3`: direct quaternion extraction from a rotation
matrix. -/
def quatFromMat3 (F : TransFns) (m00 m01 m02 m10 m11 m12 m20 m21 m22 : ℚ) : Quat :=
  let tr := m00 + m11 + m22
  if 0 < tr then
    let s := F.sqrt (tr + 1) * 2
    qNormalize F ⟨(m21 - m12) / s, (m02 - m20) / s, (m10 - m01) / s, (1/4) * s⟩
  else if m11 < m00 ∧ m22 < m00 then
    let s := F.sqrt (1 + m00 - m11 - m22) * 2
    qNormalize F ⟨(1/4) * s, (m01 + m10) / s, (m02 + m20) / s, (m21 - m12) / s⟩
  else if m22 < m11 then
    let s := F.sqrt (1 + m11 - m00 - m22) * 2
    qNormalize F ⟨(m01 + m10) / s, (1/4) * s, (m12 + m21) / s, (m02 - m20) / s⟩
  else
    let s := F.sqrt (1 + m22 - m00 - m11) * 2
    qNormalize F ⟨(m02 + m20) / s, (m12 + m21) / s, (1/4) * s, (m10 - m01) / s⟩

/-- `quatFromBasis`: rotation between two two-vector bases (`R = C·Rᵀ`),
falling back to `quatFromTwoVectors` when a basis is degenerate. -/
def quatFromBasis (F : TransFns) (restA restB currA currB : Vec3) : Quat :=
  let r := buildBasis F restA restB
  let c := buildBasis F currA currB
  if !r.ok || !c.ok then quatFromTwoVectors F restA currA
  else
    let m00 := c.bx.x * r.bx.x + c.byv.x * r.byv.x + c.bz.x * r.bz.x
    let m01 := c.bx.x * r.bx.y + c.byv.x * r.byv.y + c.bz.x * r.bz.y
    let m02 := c.bx.x * r.bx.z + c.byv.x * r.byv.z + c.bz.x * r.bz.z
    let m10 := c.bx.y * r.bx.x + c.byv.y * r.byv.x + c.bz.y * r.bz.x
    let m11 := c.bx.y * r.bx.y + c.byv.y * r.byv.y + c.bz.y * r.bz.y
    let m12 := c.bx.y * r.bx.z + c.byv.y * r.byv.z + c.bz.y * r.bz.z
    let m20 := c.bx.z * r.bx.x + c.byv.z * r.byv.x + c.bz.z * r.bz.x
    let m21 := c.bx.z * r.bx.y + c.byv.z * r.byv.y + c.bz.z * r.bz.y
    let m22 := c.bx.z * r.bx.z + c.byv.z * r.byv.z + c.bz.z * r.bz.z
    quatFromMat3 F m00 m01 m02 m10 m11 m12 m20 m21 m22

/-! ### Rig topology (base tables plus the hand rigs spliced at module
load by `buildHandRig`) -/

/-- `PARENT` before the hand rigs are added. -/
def basePARENT : List (String × Option String) :=
  [("Hips", none), ("Spine", some "Hips"), ("Chest", some "Spine"),
   ("Neck", some "Chest"), ("Head", some "Neck"),
   ("LeftShoulder", some "Chest"), ("LeftElbow", some "LeftShoulder"),
   ("LeftWrist", some "LeftElbow"),
   ("RightShoulder", some "Chest"), ("RightElbow", some "RightShoulder"),
   ("RightWrist", some "RightElbow"),
   ("LeftHip", some "Hips"), ("LeftKnee", some "LeftHip"),
   ("LeftAnkle", some "LeftKnee"),
   ("RightHip", some "Hips"), ("RightKnee", some "RightHip"),
   ("RightAnkle", some "RightKnee")]

/-- `MAIN_CHILD` before the hand rigs are added. -/
def baseMAIN_CHILD : List (String × String) :=
  [("Hips", "Spine"), ("Spine", "Chest"), ("Chest", "Neck"), ("Neck", "Head"),
   ("LeftShoulder", "LeftElbow"), ("LeftElbow", "LeftWrist"),
   ("RightShoulder", "RightElbow"), ("RightElbow", "RightWrist"),
   ("LeftHip", "LeftKnee"), ("LeftKnee", "LeftAnkle"),
   ("RightHip", "RightKnee"), ("RightKnee", "RightAnkle")]

/-- `ORDER` before the hand rigs are spliced in. -/
def baseORDER : List String :=
  ["Hips", "Spine", "Chest", "Neck", "Head",
   "LeftShoulder", "LeftElbow", "LeftWrist",
   "RightShoulder", "RightElbow", "RightWrist",
   "LeftHip", "LeftKnee", "LeftAnkle",
   "RightHip", "RightKnee", "RightAnkle"]

/-- A hand rig node (`HandNode`): rig name, hand landmark name, parent
rig name. -/
structure HNode where
  rig : String
  lm : String
  parent : String
deriving DecidableEq, Repr

/-- `HAND_CHAINS`: per finger, the rig-part / landmark pairs from base to
tip. -/
def HAND_CHAINS : List (List (String × String)) :=
  [[("Thumb_CMC", "THUMB_CMC"), ("Thumb_MCP", "THUMB_MCP"),
    ("Thumb_IP", "THUMB_IP"), ("Thumb_TIP", "THUMB_TIP")],
   [("Index_MCP", "INDEX_FINGER_MCP"), ("Index_PIP", "INDEX_FINGER_PIP"),
    ("Index_DIP", "INDEX_FINGER_DIP"), ("Index_TIP", "INDEX_FINGER_TIP")],
   [("Middle_MCP", "MIDDLE_FINGER_MCP"), ("Middle_PIP", "MIDDLE_FINGER_PIP"),
    ("Middle_DIP", "MIDDLE_FINGER_DIP"), ("Middle_TIP", "MIDDLE_FINGER_TIP")],
   [("Ring_MCP", "RING_FINGER_MCP"), ("Ring_PIP", "RING_FINGER_PIP"),
    ("Ring_DIP", "RING_FINGER_DIP"), ("Ring_TIP", "RING_FINGER_TIP")],
   [("Pinky_MCP", "PINKY_MCP"), ("Pinky_PIP", "PINKY_PIP"),
    ("Pinky_DIP", "PINKY_DIP"), ("Pinky_TIP", "PINKY_TIP")]]

/-- The nodes of one finger chain, threading the parent (`buildHandRig`
inner loop). -/
def chainNodes (side parent : String) : List (String × String) → List HNode
  | [] => []
  | (rigPart, lm) :: rest =>
    let rig := side ++ rigPart
    ⟨rig, lm, parent⟩ :: chainNodes side rig rest

/-- `HAND_NODES[side]` as produced by `buildHandRig`. -/
def handNodes (side : String) : List HNode :=
  HAND_CHAINS.flatMap (fun chain => chainNodes side (side ++ "Wrist") chain)

/-- The `MAIN_CHILD` entries added by `buildHandRig` for one side: the
wrist points at the index MCP, and each finger part at the next one. -/
def handMainChildren (side : String) : List (String × String) :=
  (side ++ "Wrist", side ++ "Index_MCP") ::
    HAND_CHAINS.flatMap (fun chain =>
      (chain.zip chain.tail).map (fun pq => (side ++ pq.1.1, side ++ pq.2.1)))

/-- `PARENT` after both `buildHandRig` calls. -/
def parentTable : List (String × Option String) :=
  basePARENT ++ ((handNodes "Left" ++ handNodes "Right").map (fun n => (n.rig, some n.parent)))

/-- `MAIN_CHILD` after both `buildHandRig` calls. -/
def mainChildTable : List (String × String) :=
  baseMAIN_CHILD ++ handMainChildren "Left" ++ handMainChildren "Right"

/-- `ORDER.splice(indexOf(key) + 1, 0, ...ins)`. -/
def spliceAfter (l : List String) (key : String) (ins : List String) : List String :=
  match l.findIdx? (fun j => j = key) with
  | some i => l.take (i + 1) ++ ins ++ l.drop (i + 1)
  | none => l

/-- `ORDER` after both `buildHandRig` calls (Left first, then Right). -/
def rigORDER : List String :=
  spliceAfter
    (spliceAfter baseORDER "LeftWrist" ((handNodes "Left").map (fun n => n.rig)))
    "RightWrist" ((handNodes "Right").map (fun n => n.rig))

/-- `PARENT[j]` lookup (an unknown joint reads as `undefined`, i.e.
root-like, as in the source). -/
def parentOf (j : String) : Option String :=
  match parentTable.find? (fun kv => kv.1 = j) with
  | some kv => kv.2
  | none => none

/-- `MAIN_CHILD[j]` lookup. -/
def mainChildOf (j : String) : Option String :=
  (mainChildTable.find? (fun kv => kv.1 = j)).map (fun kv => kv.2)

/-! ### Rig positions per frame -/

/-- `toBVHCoords`: normalized image coordinates to centered y-up 3D (the
`z` finiteness test is vacuous over ℚ, and a missing `z` is 0). -/
def toBVHCoords (j : Joint) (scale : ℚ) : Vec3 :=
  ⟨(j.x - 1/2) * scale, (1/2 - j.y) * scale, -j.z * scale⟩

/-- `getPose`. -/
def getPose (f : Frame) (name : String) : Option Joint := f.getJ (poseKey name)

/-- `handKey`. -/
def handKey (side name : String) : String :=
  (if side = "Left" then "LH_" else "RH_") ++ name

/-- `getHand`. -/
def getHand (f : Frame) (side name : String) : Option Joint := f.getJ (handKey side name)

/-- `avg` on optional vectors (`a || b` when either is missing). -/
def avgV : Option Vec3 → Option Vec3 → Option Vec3
  | some a, some b => some ⟨(a.x + b.x) / 2, (a.y + b.y) / 2, (a.z + b.z) / 2⟩
  | some a, none => some a
  | none, b => b

/-- The 17 base entries of the record built by `rigPositions`, as a
lookup function. -/
def rigBase (frame : Frame) (scale : ℚ) : String → Option Vec3 := fun k =>
  let lhip := (getPose frame "LEFT_HIP").map (fun j => toBVHCoords j scale)
  let rhip := (getPose frame "RIGHT_HIP").map (fun j => toBVHCoords j scale)
  let lsho := (getPose frame "LEFT_SHOULDER").map (fun j => toBVHCoords j scale)
  let rsho := (getPose frame "RIGHT_SHOULDER").map (fun j => toBVHCoords j scale)
  let hips := (avgV lhip rhip).getD v0
  let chest := (avgV lsho rsho).getD hips
  let spine := (avgV (some hips) (some chest)).getD hips
  let head := match getPose frame "NOSE" with
    | some j => toBVHCoords j scale
    | none => chest
  let neck := (avgV (some chest) (some head)).getD chest
  let leftWristPos := match getPose frame "LEFT_WRIST" with
    | some j => some (toBVHCoords j scale)
    | none =>
      match getHand frame "Left" "WRIST" with
      | some j => some (toBVHCoords j scale)
      | none => none
  let rightWristPos := match getPose frame "RIGHT_WRIST" with
    | some j => some (toBVHCoords j scale)
    | none =>
      match getHand frame "Right" "WRIST" with
      | some j => some (toBVHCoords j scale)
      | none => none
  if k = "Hips" then some hips
  else if k = "Spine" then some spine
  else if k = "Chest" then some chest
  else if k = "Neck" then some neck
  else if k = "Head" then some head
  else if k = "LeftShoulder" then some (lsho.getD chest)
  else if k = "LeftElbow" then (getPose frame "LEFT_ELBOW").map (fun j => toBVHCoords j scale)
  else if k = "LeftWrist" then leftWristPos
  else if k = "RightShoulder" then some (rsho.getD chest)
  else if k = "RightElbow" then (getPose frame "RIGHT_ELBOW").map (fun j => toBVHCoords j scale)
  else if k = "RightWrist" then rightWristPos
  else if k = "LeftHip" then some (lhip.getD hips)
  else if k = "LeftKnee" then (getPose frame "LEFT_KNEE").map (fun j => toBVHCoords j scale)
  else if k = "LeftAnkle" then (getPose frame "LEFT_ANKLE").map (fun j => toBVHCoords j scale)
  else if k = "RightHip" then some (rhip.getD hips)
  else if k = "RightKnee" then (getPose frame "RIGHT_KNEE").map (fun j => toBVHCoords j scale)
  else if k = "RightAnkle" then (getPose frame "RIGHT_ANKLE").map (fun j => toBVHCoords j scale)
  else none

/-- One hand node value inside `applyHand`: landmark re-based by the
pose-wrist/hand-wrist offset, else the wrist position. -/
def handVal (frame : Frame) (scale : ℚ) (side : String) (wrist : Option Vec3)
    (n : HNode) : Option Vec3 :=
  let handWrist := (getHand frame side "WRIST").map (fun j => toBVHCoords j scale)
  let delta := match wrist, handWrist with
    | some w, some hw => vsub w hw
    | _, _ => v0
  match getHand frame side n.lm with
  | some j => some (vadd (toBVHCoords j scale) delta)
  | none => wrist

/-- The record after both `applyHand` passes. -/
def rigWithHands (frame : Frame) (scale : ℚ) : String → Option Vec3 := fun k =>
  let base := rigBase frame scale
  match (handNodes "Left").find? (fun n => n.rig = k) with
  | some n => handVal frame scale "Left" (base "LeftWrist") n
  | none =>
    match (handNodes "Right").find? (fun n => n.rig = k) with
    | some n => handVal frame scale "Right" (base "RightWrist") n
    | none => base k

/-- The final fallback pass of `rigPositions`: a joint still unresolved
inherits its parent's (current) value, the root falls back to zero. -/
def resolveFallbacks (m0 : String → Option Vec3) : String → Option Vec3 :=
  rigORDER.foldl (fun acc j =>
    match acc j with
    | some _ => acc
    | none => fun k =>
        if k = j then
          match parentOf j with
          | some p => acc p
          | none => some v0
        else acc k) m0

/-- `rigPositions` from `part_008`. -/
def rigPositions (frame : Frame) (scale : ℚ) : String → Option Vec3 :=
  resolveFallbacks (rigWithHands frame scale)

/-! ### Hierarchy and motion serialization -/

/-- `ECMA toFixed` on an exact rational: sign, then round half up on the
magnitude, then fixed-width decimal rendering. -/
def toFixedQ (x : ℚ) (d : ℕ) : String :=
  let sgn := if x < 0 then "-" else ""
  let n : ℕ := (⌊|x| * (10 : ℚ) ^ d + 1/2⌋).toNat
  if d = 0 then sgn ++ toString n
  else
    let base := 10 ^ d
    let fpStr := toString (n % base)
    let pad := String.mk (List.replicate (d - fpStr.length) '0')
    sgn ++ toString (n / base) ++ "." ++ pad ++ fpStr

/-- The channel value serializer of `skeletonToBVH`:
`Number.isFinite(n) ? n.toFixed(6) : '0.000000'`. -/
def serializeChannel : ENum → String
  | .fin q => toFixedQ q 6
  | _ => "0.000000"

/-- `childrenOf` inside `bvhHierarchy`. -/
def childrenOf (parent : String) : List String :=
  rigORDER.filter (fun j => parentOf j = some parent)

/-- `'  '.repeat(depth)`. -/
def indentStr (depth : ℕ) : String := String.mk (List.replicate (2 * depth) ' ')

/-- `emitJoint` inside `bvhHierarchy`: returns the text lines and the
depth-first channel order.  The fuel (64 at the root) strictly dominates
the rig tree depth (at most 10), so it never runs out. -/
def emitJoint (rest : String → Vec3) : ℕ → String → ℕ → List String × List String
  | 0, _, _ => ([], [])
  | fuel + 1, name, depth =>
    let ind := indentStr depth
    let isRoot := parentOf name = none
    let off := match parentOf name with
      | some p => vsub (rest name) (rest p)
      | none => v0
    let head := [ind ++ (if isRoot then "ROOT " else "JOINT ") ++ name,
      ind ++ "\x7b",
      ind ++ "  OFFSET " ++ toFixedQ off.x 4 ++ " " ++ toFixedQ off.y 4 ++ " " ++ toFixedQ off.z 4,
      ind ++ (if isRoot then
        "  CHANNELS 6 Xposition Yposition Zposition Zrotation Xrotation Yrotation"
        else "  CHANNELS 3 Zrotation Xrotation Yrotation")]
    let kids := childrenOf name
    if kids.isEmpty then
      (head ++ [ind ++ "  End Site", ind ++ "  \x7b", ind ++ "    OFFSET 0.0 0.0 0.0",
        ind ++ "  \x7d", ind ++ "\x7d"], [name])
    else
      let sub := kids.foldl (fun acc k =>
        let r := emitJoint rest fuel k (depth + 1)
        (acc.1 ++ r.1, acc.2 ++ r.2)) ([], [])
      (head ++ sub.1 ++ [ind ++ "\x7d"], name :: sub.2)

/-- `bvhHierarchy`: hierarchy text and the depth-first channel order. -/
def bvhHierarchy (rest : String → Vec3) : String × List String :=
  let r := emitJoint rest 64 "Hips" 0
  (String.intercalate "\n" r.1, r.2)

/-- Local rotation of one joint inside the motion loop of
`skeletonToBVH` (torso and shoulders use the two-vector basis method,
all other joints with a main child the single-vector method). -/
def localRot (F : TransFns) (rest pos : String → Vec3) (parentQ : Quat)
    (joint : String) : Quat :=
  match mainChildOf joint with
  | none => qid
  | some child =>
    let parentInv := qInv parentQ
    if joint = "Spine" then
      quatFromBasis F (vsub (rest "Chest") (rest "Spine"))
        (vsub (rest "RightShoulder") (rest "LeftShoulder"))
        (qRotate parentInv (vsub (pos "Chest") (pos "Spine")))
        (qRotate parentInv (vsub (pos "RightShoulder") (pos "LeftShoulder")))
    else if joint = "Chest" then
      quatFromBasis F (vsub (rest "Neck") (rest "Chest"))
        (vsub (rest "RightShoulder") (rest "LeftShoulder"))
        (qRotate parentInv (vsub (pos "Neck") (pos "Chest")))
        (qRotate parentInv (vsub (pos "RightShoulder") (pos "LeftShoulder")))
    else if joint = "LeftShoulder" then
      quatFromBasis F (vsub (rest "LeftElbow") (rest "LeftShoulder"))
        (vsub (rest "Chest") (rest "LeftShoulder"))
        (qRotate parentInv (vsub (pos "LeftElbow") (pos "LeftShoulder")))
        (qRotate parentInv (vsub (pos "Chest") (pos "LeftShoulder")))
    else if joint = "RightShoulder" then
      quatFromBasis F (vsub (rest "RightElbow") (rest "RightShoulder"))
        (vsub (rest "Chest") (rest "RightShoulder"))
        (qRotate parentInv (vsub (pos "RightElbow") (pos "RightShoulder")))
        (qRotate parentInv (vsub (pos "Chest") (pos "RightShoulder")))
    else
      quatFromTwoVectors F (vsub (rest child) (rest joint))
        (qRotate parentInv (vsub (pos child) (pos joint)))

/-- Pointwise update of a joint-to-quaternion map. -/
def qUpdate (m : String → Option Quat) (k : String) (v : Quat) : String → Option Quat :=
  fun x => if x = k then some v else m x

/-- `qGlobal`/`qLocal` initial state: identity at the root. -/
def initQMap : String → Option Quat := fun k => if k = "Hips" then some qid else none

/-- One iteration of the rotation loop: first component is `qGlobal`,
second `qLocal`. -/
def rotStep (F : TransFns) (rest pos : String → Vec3)
    (acc : (String → Option Quat) × (String → Option Quat)) (joint : String) :
    (String → Option Quat) × (String → Option Quat) :=
  if joint = "Hips" then acc
  else
    let parentQ := match parentOf joint with
      | some p => (acc.1 p).getD qid
      | none => qid
    let ql := localRot F rest pos parentQ joint
    (qUpdate acc.1 joint (qMul parentQ ql), qUpdate acc.2 joint ql)

/-- The per-frame rotation computation of `skeletonToBVH`, in traversal
order. -/
def computeRots (F : TransFns) (rest pos : String → Vec3) :
    (String → Option Quat) × (String → Option Quat) :=
  rigORDER.foldl (rotStep F rest pos) (initQMap, initQMap)

/-- `opts?.fps ?? skeleton.fps ?? 15`. -/
def bvhFpsOf (skel : Skeleton) (optsFps : Option ℚ) : ℚ :=
  optsFps.getD (skel.fps.getD 15)

/-- Rest positions from the first frame. -/
def restPosOf (skel : Skeleton) (scale : ℚ) : String → Option Vec3 :=
  rigPositions (skel.frames.headD dfltFrame) scale

/-- The rest root (first-frame hip midpoint). -/
def restRootOf (skel : Skeleton) (scale : ℚ) : Vec3 :=
  ((restPosOf skel scale) "Hips").getD v0

/-- The rest pose re-centered so the root is at the origin. -/
def restOf (skel : Skeleton) (scale : ℚ) : String → Vec3 :=
  fun j => vsub (((restPosOf skel scale) j).getD v0) (restRootOf skel scale)

/-- Per-frame positions re-centered by the rest root. -/
def framePosOf (skel : Skeleton) (scale : ℚ) (f : Frame) : String → Vec3 :=
  fun j => vsub (((rigPositions f scale) j).getD v0) (restRootOf skel scale)

/-- The flat per-frame channel value list of `skeletonToBVH`: iterating
the hierarchy channel order, the root contributes its translation plus
three zero rotations, every other joint its Euler angles in Z X Y
order. -/
def frameValuesOf (F : TransFns) (skel : Skeleton) (scale : ℚ) (f : Frame) : List ℚ :=
  let rest := restOf skel scale
  let pos := framePosOf skel scale f
  let rootT := vsub (pos "Hips") (rest "Hips")
  let rots := computeRots F rest pos
  (bvhHierarchy rest).2.flatMap (fun j =>
    if j = "Hips" then [rootT.x, rootT.y, rootT.z, 0, 0, 0]
    else
      let e := quatToEulerZXY F ((rots.2 j).getD qid)
      [e.z, e.x, e.y])

/-- One serialized motion line. -/
def motionLineOf (F : TransFns) (skel : Skeleton) (scale : ℚ) (f : Frame) : String :=
  String.intercalate " " ((frameValuesOf F skel scale f).map (fun n => serializeChannel (.fin n)))

/-- All motion lines: one per input frame. -/
def motionLinesOf (F : TransFns) (skel : Skeleton) (scale : ℚ) : List String :=
  skel.frames.map (motionLineOf F skel scale)

/-- `skeletonToBVH` from `part_008`: throws (`Except.error`) on an empty
clip, otherwise serializes hierarchy and motion. -/
def skeletonToBVH (F : TransFns) (skeleton : Skeleton) (optsFps optsScale : Option ℚ) :
    Except String String :=
  match skeleton.frames with
  | [] => .error "No frames"
  | _ :: _ =>
    let fps := bvhFpsOf skeleton optsFps
    let frameTime := 1 / fps
    let scale := optsScale.getD 200
    .ok ("HIERARCHY\n" ++ (bvhHierarchy (restOf skeleton scale)).1 ++
      "\nMOTION\nFrames: " ++ toString skeleton.frames.length ++
      "\nFrame Time: " ++ toFixedQ frameTime 8 ++ "\n" ++
      String.intercalate "\n" (motionLinesOf F skeleton scale) ++ "\n")

/-! ## Normalization/resampling pre-pass (modelled from the spec)

The current animation encoder of the repository accepts
`{fpsOut, shoulderWidthCm, normalize, rootRotation}` options — its caller
`ConsentModal.tsx` invokes `skeletonToBVH` with exactly those — but that
version of `bvh.ts` is not among the provided sources; only the earlier
`{fps, scale}` versions are.  The pre-pass it performs is therefore
modelled here from the spec wording (§4.4 "Normalization/resampling
pre-pass"), reusing the in-source `resampleSkeleton` for the resampling
step as §4.5 says both engines share it. -/

/-- The hip midpoint of a frame, when both hip landmarks are present. -/
def hipMidOf (f : Frame) : Option Joint :=
  match f.getJ (poseKey "LEFT_HIP"), f.getJ (poseKey "RIGHT_HIP") with
  | some a, some b => some (midJ a b)
  | _, _ => none

/-- Modelled from the spec: "translate so the initial hip midpoint is the
coordinate origin" — subtract the first frame's hip midpoint from every
joint of every frame. -/
def translateToHipOrigin (clip : Skeleton) : Skeleton :=
  let h0 := (hipMidOf (clip.frames.headD dfltFrame)).getD ⟨0, 0, 0⟩
  { clip with frames := clip.frames.map (fun f =>
      { f with joints := f.joints.map (fun kv : String × Joint =>
          (kv.1, ⟨kv.2.x - h0.x, kv.2.y - h0.y, kv.2.z - h0.z⟩)) }) }

/-- Modelled from the spec: isotropic scaling of every joint coordinate. -/
def scaleClip (clip : Skeleton) (s : ℚ) : Skeleton :=
  { clip with frames := clip.frames.map (fun f =>
      { f with joints := f.joints.map (fun kv : String × Joint =>
          (kv.1, ⟨kv.2.x * s, kv.2.y * s, kv.2.z * s⟩)) }) }

/-- The squared shoulder width of a frame, when both shoulder landmarks
are present. -/
def sqShoulderWidth (f : Frame) : Option ℚ :=
  match f.getJ (poseKey "LEFT_SHOULDER"), f.getJ (poseKey "RIGHT_SHOULDER") with
  | some a, some b => some (sqDistJ a b)
  | _, _ => none

/-- Median of a rational list (sort, take the middle; average the two
middles for an even length). -/
def medianQ (l : List ℚ) : ℚ :=
  let s := l.insertionSort (fun a b => a ≤ b)
  if l.length = 0 then 0
  else if l.length % 2 = 1 then s.getD (l.length / 2) 0
  else (s.getD (l.length / 2 - 1) 0 + s.getD (l.length / 2) 0) / 2

/-- Modelled from the spec: the isotropic calibration factor making "the
median shoulder width across the clip equal a fixed calibration length"
`L` (the shoulder widths are Euclidean lengths, hence the square root of
the median squared width). -/
def shoulderScaleOf (F : TransFns) (clip : Skeleton) (L : ℚ) : ℚ :=
  L / F.sqrt (medianQ (clip.frames.filterMap sqShoulderWidth))

/-- Modelled from the spec: the full §4.4 pre-pass — translate to the
initial hip midpoint, scale so the median shoulder width equals `L`,
resample to `fpsOut` (reusing the in-source `resampleSkeleton`). -/
def normalizePrePass (F : TransFns) (clip : Skeleton) (L fpsOut : ℚ) : Skeleton :=
  let tr := translateToHipOrigin clip
  resampleSkeleton (scaleClip tr (shoulderScaleOf F tr L)) fpsOut

/-! ## Concrete inputs for witnesses and counterexamples -/

/-- A 2-frame template clip: hips fixed, one moving marker. -/
def tmplC1 : Skeleton :=
  ⟨none,
   [⟨0, [(poseKey "LEFT_HIP", ⟨0.4, 0.5, 0⟩), (poseKey "RIGHT_HIP", ⟨0.6, 0.5, 0⟩),
        (poseKey "LEFT_WRIST", ⟨0.7, 0.5, 0⟩)]⟩,
    ⟨1/10, [(poseKey "LEFT_HIP", ⟨0.4, 0.5, 0⟩), (poseKey "RIGHT_HIP", ⟨0.6, 0.5, 0⟩),
        (poseKey "LEFT_WRIST", ⟨0.7, 0.4, 0⟩)]⟩]⟩

/-- The claimed identity parameters: direction 0, intensity 1, tempo 1. -/
def pIdentity : MeaningParams := ⟨0, 0, 0, 1, 1, 0⟩

/-- A 1-frame template clip with a marker off the root. -/
def tmplC5 : Skeleton :=
  ⟨none,
   [⟨0, [(poseKey "LEFT_HIP", ⟨0.4, 0.5, 0⟩), (poseKey "RIGHT_HIP", ⟨0.6, 0.5, 0⟩),
        (poseKey "LEFT_WRIST", ⟨0.7, 0.5, 0⟩)]⟩]⟩

/-- Meaning params with intensity 2 (above the clamp range). -/
def pC5a : MeaningParams := ⟨0, 0, 0, 2, 1/2, 0⟩

/-- Meaning params with intensity 1. -/
def pC5b : MeaningParams := ⟨0, 0, 0, 1, 1/2, 0⟩

/-- Two frames, both after the slice window `[1, 2]`. -/
def skC4 : Skeleton := ⟨none, [⟨5, []⟩, ⟨10, []⟩]⟩

/-- Rest positions for the Spine twist counterexample: spine axis `(0,1,0)`,
shoulder line `(1,0,0)`. -/
def restC6 : String → Vec3 := fun k =>
  if k = "Chest" then ⟨0, 1, 0⟩
  else if k = "LeftShoulder" then ⟨-(1/2), 1, 0⟩
  else if k = "RightShoulder" then ⟨1/2, 1, 0⟩
  else v0

/-- Current positions: same spine axis, shoulder line rotated about it by
the rational-cosine angle `cos = 7/25`. -/
def posC6 : String → Vec3 := fun k =>
  if k = "Chest" then ⟨0, 1, 0⟩
  else if k = "LeftShoulder" then ⟨-(7/50), 1, 12/25⟩
  else if k = "RightShoulder" then ⟨7/50, 1, -(12/25)⟩
  else v0

/-- Rest pose for the identity-rotation witness: the left wrist one unit
above the left elbow. -/
def restW : String → Vec3 := fun k => if k = "LeftWrist" then ⟨0, 1, 0⟩ else v0

/-- A 2-frame clip with hips and shoulders present everywhere, shoulder
width `2/5` (squared `4/25`). -/
def clipC2 : Skeleton :=
  ⟨none,
   [⟨0, [(poseKey "LEFT_HIP", ⟨0.45, 0.5, 0⟩), (poseKey "RIGHT_HIP", ⟨0.55, 0.5, 0⟩),
        (poseKey "LEFT_SHOULDER", ⟨0.3, 0.2, 0⟩), (poseKey "RIGHT_SHOULDER", ⟨0.7, 0.2, 0⟩)]⟩,
    ⟨1, [(poseKey "LEFT_HIP", ⟨0.45, 0.5, 0⟩), (poseKey "RIGHT_HIP", ⟨0.55, 0.5, 0⟩),
        (poseKey "LEFT_SHOULDER", ⟨0.3, 0.2, 0⟩), (poseKey "RIGHT_SHOULDER", ⟨0.7, 0.2, 0⟩)]⟩]⟩

/-- Two 1-frame clips whose shoulder widths differ by a factor 2, for the
fixed-scale counterexample. -/
def clipC2a : Skeleton :=
  ⟨none, [⟨0, [(poseKey "LEFT_SHOULDER", ⟨0.4, 0.2, 0⟩), (poseKey "RIGHT_SHOULDER", ⟨0.6, 0.2, 0⟩),
    (poseKey "LEFT_HIP", ⟨0.45, 0.5, 0⟩), (poseKey "RIGHT_HIP", ⟨0.55, 0.5, 0⟩)]⟩]⟩

/-- Like `clipC2a` with doubled shoulder width. -/
def clipC2b : Skeleton :=
  ⟨none, [⟨0, [(poseKey "LEFT_SHOULDER", ⟨0.3, 0.2, 0⟩), (poseKey "RIGHT_SHOULDER", ⟨0.7, 0.2, 0⟩),
    (poseKey "LEFT_HIP", ⟨0.45, 0.5, 0⟩), (poseKey "RIGHT_HIP", ⟨0.55, 0.5, 0⟩)]⟩]⟩

/-- A zero-frame clip. -/
def emptyClip : Skeleton := ⟨none, []⟩

/-- A 1-frame clip with hips present. -/
def oneFrameClip : Skeleton :=
  ⟨some 20, [⟨0, [(poseKey "LEFT_HIP", ⟨0.45, 0.5, 0⟩), (poseKey "RIGHT_HIP", ⟨0.55, 0.5, 0⟩)]⟩]⟩

/-- A meaning value above the default threshold. -/
def meaningOk : Meaning := ⟨"greeting", .fin (7/10)⟩

/-! ## Helper lemmas -/

theorem sortFrames_idem (l : List Frame) : sortFrames (sortFrames l) = sortFrames l :=
  List.Sorted.insertionSort_eq (List.sorted_insertionSort frameLE l)

theorem sortFrames_eq_of_sorted {l : List Frame} (h : l.Pairwise frameLE) :
    sortFrames l = l :=
  List.Sorted.insertionSort_eq h

theorem mem_sortFrames {f : Frame} {l : List Frame} :
    f ∈ sortFrames l ↔ f ∈ l :=
  List.Perm.mem_iff (List.perm_insertionSort frameLE l)

theorem resample_congr (c1 c2 : Skeleton) (r : ℚ)
    (h : sortFrames c1.frames = sortFrames c2.frames) :
    resampleSkeleton c1 r = resampleSkeleton c2 r := by
  unfold resampleSkeleton
  rw [h]

theorem lastLeFold_mem (l : List Frame) (bound : ℚ) (init : Frame) :
    lastLeFold l bound init = init ∨ lastLeFold l bound init ∈ l := by
  induction l generalizing init with
  | nil => exact Or.inl rfl
  | cons a t ih =>
    have hstep : lastLeFold (a :: t) bound init =
        lastLeFold t bound (if a.t ≤ bound then a else init) := rfl
    rw [hstep]
    by_cases hb : a.t ≤ bound
    · rw [if_pos hb]
      rcases ih a with h | h
      · exact Or.inr (by rw [h]; exact List.mem_cons_self a t)
      · exact Or.inr (List.mem_cons_of_mem a h)
    · rw [if_neg hb]
      rcases ih init with h | h
      · exact Or.inl h
      · exact Or.inr (List.mem_cons_of_mem a h)

theorem dedup_pair (a b : Frame) :
    dedupByT [a, b] = if b.t = a.t then [a] else [a, b] := by
  by_cases h : b.t = a.t <;>
    simp [dedupByT, dedupByTAux, h]

theorem getLastD_mem_or (l : List Frame) (d : Frame) : l.getLastD d = d ∨ l.getLastD d ∈ l := by
  induction l generalizing d with
  | nil => exact Or.inl rfl
  | cons a t ih =>
    rw [List.getLastD_cons]
    rcases ih a with h | h
    · exact Or.inr (by rw [h]; exact List.mem_cons_self a t)
    · exact Or.inr (List.mem_cons_of_mem a h)

theorem lastLeFold_of_none (l : List Frame) (bound : ℚ) :
    ∀ init, (∀ f ∈ l, ¬ f.t ≤ bound) → lastLeFold l bound init = init := by
  induction l with
  | nil => intro init _; rfl
  | cons a t ih =>
    intro init h
    have hstep : lastLeFold (a :: t) bound init =
        lastLeFold t bound (if a.t ≤ bound then a else init) := rfl
    rw [hstep, if_neg (h a (List.mem_cons_self a t))]
    exact ih init (fun f hf => h f (List.mem_cons_of_mem a hf))

theorem lastLeFold_spec (l : List Frame) (bound : ℚ) :
    ∀ init, l.Pairwise frameLE → (∃ f ∈ l, f.t ≤ bound) →
      lastLeFold l bound init ∈ l ∧ (lastLeFold l bound init).t ≤ bound ∧
      ∀ f ∈ l, f.t ≤ bound → f.t ≤ (lastLeFold l bound init).t := by
  induction l with
  | nil =>
    intro init _ hex
    exact absurd hex (by simp)
  | cons a t ih =>
    intro init hpw hex
    have hstep : lastLeFold (a :: t) bound init =
        lastLeFold t bound (if a.t ≤ bound then a else init) := rfl
    by_cases hrest : ∃ f ∈ t, f.t ≤ bound
    · obtain ⟨r1, r2, r3⟩ :=
        ih (if a.t ≤ bound then a else init) (List.pairwise_cons.mp hpw).2 hrest
      rw [hstep]
      refine ⟨List.mem_cons_of_mem a r1, r2, ?_⟩
      intro f hf hfb
      rcases List.mem_cons.mp hf with rfl | hft
      · obtain ⟨g, hg, hgb⟩ := hrest
        exact le_trans ((List.pairwise_cons.mp hpw).1 g hg) (r3 g hg hgb)
      · exact r3 f hft hfb
    · push_neg at hrest
      have hab : a.t ≤ bound := by
        obtain ⟨g, hg, hgb⟩ := hex
        rcases List.mem_cons.mp hg with rfl | hgt
        · exact hgb
        · exact absurd hgb (not_le.mpr (hrest g hgt))
      have hnone : lastLeFold t bound a = a :=
        lastLeFold_of_none t bound a (fun f hf => not_le.mpr (hrest f hf))
      rw [hstep, if_pos hab, hnone]
      refine ⟨List.mem_cons_self a t, hab, ?_⟩
      intro f hf hfb
      rcases List.mem_cons.mp hf with rfl | hft
      · exact le_refl _
      · exact absurd hfb (not_le.mpr (hrest f hft))

theorem getLastD_mem_ne (l : List Frame) (d : Frame) (h : l ≠ []) : l.getLastD d ∈ l := by
  rcases l with _ | ⟨a, t⟩
  · exact absurd rfl h
  · rw [List.getLastD_cons]
    rcases getLastD_mem_or t a with h2 | h2
    · rw [h2]; exact List.mem_cons_self a t
    · exact List.mem_cons_of_mem a h2

theorem getLastD_max (l : List Frame) :
    ∀ d, l.Pairwise frameLE → ∀ f ∈ l, f.t ≤ (l.getLastD d).t := by
  induction l with
  | nil =>
    intro d _ f hf
    simp at hf
  | cons a t ih =>
    intro d hpw f hf
    rw [List.getLastD_cons]
    rcases List.mem_cons.mp hf with rfl | hft
    · rcases ht : t with _ | ⟨b, t'⟩
      · exact le_refl _
      · rw [ht] at hpw
        have hg : (b :: t').getLastD f ∈ b :: t' := getLastD_mem_ne _ f (by simp)
        exact (List.pairwise_cons.mp hpw).1 _ hg
    · exact ih a (List.pairwise_cons.mp hpw).2 f hft

theorem netOf_self (r : Option Joint) : netOf r r = ⟨0, 0, 0⟩ := by
  cases r with
  | none => rfl
  | some a => simp [netOf]

unseal Rat.ofScientific Rat.mul Rat.inv Rat.add Rat.sub in
theorem clamp_zd12 : clamp ((0 : ℚ) / 1.2) 0 1 = 0 := rfl

unseal Rat.ofScientific Rat.mul Rat.inv Rat.add Rat.sub in
theorem clamp_zd008 : clamp ((0 : ℚ) / 0.08) 0 1 = 0 := rfl

theorem map_frame_eta (l : List Frame) :
    l.map (fun f => Frame.mk f.t f.joints) = l := by
  induction l with
  | nil => rfl
  | cons a t ih => simp [ih]

theorem map_frame_t_id (t0 : ℚ) (l : List Frame) :
    l.map (fun f => Frame.mk (t0 + (f.t - t0) / 1) f.joints) = l := by
  induction l with
  | nil => rfl
  | cons a t ih =>
    have ht : t0 + (a.t - t0) / 1 = a.t := by ring
    simp [ih, ht]

open Limen

theorem getD_map_mul (c : ℚ) (l : List ℚ) (i : ℕ) (hi : i < l.length) :
    (l.map (fun x => c * x)).getD i 0 = c * l.getD i 0 := by
  rw [List.getD_eq_getElem?_getD, List.getD_eq_getElem?_getD, List.getElem?_map]
  cases h : l[i]? with
  | none =>
    exfalso
    rw [List.getElem?_eq_none_iff] at h
    omega
  | some x => simp

theorem medianQ_smul (c : ℚ) (hc : 0 < c) (l : List ℚ) :
    medianQ (l.map (fun x => c * x)) = c * medianQ l := by
  rcases eq_or_ne l [] with rfl | hne
  · simp [medianQ]
  have hlen : l.length ≠ 0 := fun h => hne (List.length_eq_zero.mp h)
  have hlpos : 0 < l.length := Nat.pos_of_ne_zero hlen
  have hsort : (l.map (fun x => c * x)).insertionSort (fun a b => a ≤ b) =
      (l.insertionSort (fun a b => a ≤ b)).map (fun x => c * x) :=
    (List.map_insertionSort (fun a b : ℚ => a ≤ b) (fun a b : ℚ => a ≤ b)
      (fun x => c * x) l (by
        intro a _ b _
        exact (mul_le_mul_left hc).symm)).symm
  have hslen : (l.insertionSort (fun a b : ℚ => a ≤ b)).length = l.length :=
    List.length_insertionSort _ l
  unfold medianQ
  simp only [List.length_map, hsort]
  rw [if_neg hlen, if_neg hlen]
  by_cases hodd : l.length % 2 = 1
  · rw [if_pos hodd, if_pos hodd]
    exact getD_map_mul c _ _ (by rw [hslen]; exact Nat.div_lt_self hlpos (by norm_num))
  · rw [if_neg hodd, if_neg hodd]
    have h1 : l.length / 2 < (l.insertionSort (fun a b : ℚ => a ≤ b)).length := by
      rw [hslen]; exact Nat.div_lt_self hlpos (by norm_num)
    have h2 : l.length / 2 - 1 < (l.insertionSort (fun a b : ℚ => a ≤ b)).length :=
      lt_of_le_of_lt (Nat.sub_le _ _) h1
    rw [getD_map_mul c _ _ h2, getD_map_mul c _ _ h1]
    ring

theorem find_map_snd (l : List (String × Joint)) (g : Joint → Joint) (k : String) :
    (l.map (fun kv : String × Joint => (kv.1, g kv.2))).find? (fun kv => kv.1 = k) =
      (l.find? (fun kv => kv.1 = k)).map (fun kv => (kv.1, g kv.2)) := by
  induction l with
  | nil => rfl
  | cons a t ih =>
    by_cases h : a.1 = k <;> simp [List.find?_cons, h, ih]

theorem getJ_map (f : Frame) (g : Joint → Joint) (k : String) :
    (Frame.mk f.t (f.joints.map (fun kv : String × Joint => (kv.1, g kv.2)))).getJ k =
      (f.getJ k).map g := by
  unfold Frame.getJ
  rw [find_map_snd]
  cases f.joints.find? (fun kv => kv.1 = k) <;> rfl

theorem sqShoulderWidth_map (f : Frame) (g : Joint → Joint)
    (hg : ∀ a b : Joint, sqDistJ (g a) (g b) = sqDistJ a b) :
    sqShoulderWidth (Frame.mk f.t (f.joints.map (fun kv : String × Joint => (kv.1, g kv.2)))) =
      sqShoulderWidth f := by
  unfold sqShoulderWidth
  rw [getJ_map, getJ_map]
  cases f.getJ (poseKey "LEFT_SHOULDER") <;> cases f.getJ (poseKey "RIGHT_SHOULDER") <;>
    simp [hg]

theorem sqShoulderWidth_map_mul (f : Frame) (g : Joint → Joint) (c : ℚ)
    (hg : ∀ a b : Joint, sqDistJ (g a) (g b) = c * sqDistJ a b) :
    sqShoulderWidth (Frame.mk f.t (f.joints.map (fun kv : String × Joint => (kv.1, g kv.2)))) =
      (sqShoulderWidth f).map (fun w => c * w) := by
  unfold sqShoulderWidth
  rw [getJ_map, getJ_map]
  cases f.getJ (poseKey "LEFT_SHOULDER") <;> cases f.getJ (poseKey "RIGHT_SHOULDER") <;>
    simp [hg]

theorem filterMap_width_id_gen (frames : List Frame) (g : Joint → Joint)
    (hg : ∀ a b : Joint, sqDistJ (g a) (g b) = sqDistJ a b) :
    (frames.map (fun f => Frame.mk f.t
        (f.joints.map (fun kv : String × Joint => (kv.1, g kv.2))))).filterMap sqShoulderWidth =
      frames.filterMap sqShoulderWidth := by
  induction frames with
  | nil => rfl
  | cons a t ih =>
    simp only [List.map_cons, List.filterMap_cons, sqShoulderWidth_map a g hg]
    cases sqShoulderWidth a <;> simp [ih]

theorem filterMap_width_mul_gen (frames : List Frame) (g : Joint → Joint) (c : ℚ)
    (hg : ∀ a b : Joint, sqDistJ (g a) (g b) = c * sqDistJ a b) :
    (frames.map (fun f => Frame.mk f.t
        (f.joints.map (fun kv : String × Joint => (kv.1, g kv.2))))).filterMap sqShoulderWidth =
      (frames.filterMap sqShoulderWidth).map (fun w => c * w) := by
  induction frames with
  | nil => rfl
  | cons a t ih =>
    simp only [List.map_cons, List.filterMap_cons, sqShoulderWidth_map_mul a g c hg]
    cases sqShoulderWidth a <;> simp [ih]

theorem widths_translate (clip : Skeleton) :
    (translateToHipOrigin clip).frames.filterMap sqShoulderWidth =
      clip.frames.filterMap sqShoulderWidth := by
  simp only [translateToHipOrigin]
  exact filterMap_width_id_gen clip.frames
    (fun j => ⟨j.x - ((hipMidOf (clip.frames.headD dfltFrame)).getD ⟨0, 0, 0⟩).x,
               j.y - ((hipMidOf (clip.frames.headD dfltFrame)).getD ⟨0, 0, 0⟩).y,
               j.z - ((hipMidOf (clip.frames.headD dfltFrame)).getD ⟨0, 0, 0⟩).z⟩)
    (by intro a b; simp only [sqDistJ]; ring)

theorem widths_scale (clip : Skeleton) (s : ℚ) :
    (scaleClip clip s).frames.filterMap sqShoulderWidth =
      (clip.frames.filterMap sqShoulderWidth).map (fun w => s ^ 2 * w) := by
  simp only [scaleClip]
  exact filterMap_width_mul_gen clip.frames
    (fun j => ⟨j.x * s, j.y * s, j.z * s⟩) (s ^ 2)
    (by intro a b; simp only [sqDistJ]; ring)

theorem getJ_mk_map (t : ℚ) (l : List (String × Joint)) (g : Joint → Joint) (k : String) :
    (Frame.mk t (l.map (fun kv : String × Joint => (kv.1, g kv.2)))).getJ k =
      ((Frame.mk t l).getJ k).map g := by
  unfold Frame.getJ
  rw [find_map_snd]
  cases l.find? (fun kv => kv.1 = k) <;> rfl

theorem resampleGo_times (frames : List Frame) (keys : List String) (t0 dur cden : ℚ) :
    ∀ (rem i j : ℕ), (resampleGo frames keys t0 dur cden j i rem).map (fun fr => fr.t) =
      (List.range rem).map (fun k => t0 + (((i + k : ℕ) : ℚ) / cden) * dur) := by
  intro rem
  induction rem with
  | zero => intro i j; rfl
  | succ n ih =>
    intro i j
    simp only [resampleGo, List.map_cons, List.range_succ_eq_map, List.map_map, interpFrame]
    refine List.cons_eq_cons.mpr ⟨?_, ?_⟩
    · norm_num
    · rw [ih (i + 1)]
      refine List.map_congr_left ?_
      intro k _
      simp only [Function.comp]
      have : ((i + 1 : ℕ) + (k : ℕ) : ℚ) = ((i + (k + 1) : ℕ) : ℚ) := by push_cast; ring
      rw [show (i + 1) + k = i + (k + 1) from by omega]

theorem resample_times_of_ne (c : Skeleton) (fps : ℚ) (hne : c.frames ≠ []) :
    ∃ t0 dur cnt,
      t0 = ((sortFrames c.frames).headD dfltFrame).t ∧
      dur = max 0 (((sortFrames c.frames).getLastD dfltFrame).t - t0) ∧
      cnt = (max 1 (⌊dur * fps⌋ + 1)).toNat ∧
      (resampleSkeleton c fps).frames.map (fun fr => fr.t) =
        (List.range cnt).map (fun i : ℕ => t0 + ((i : ℚ) / ((cnt : ℚ) - 1)) * dur) := by
  have hsne : sortFrames c.frames ≠ [] := by
    intro hcon
    have := congrArg List.length hcon
    rw [sortFrames, List.length_insertionSort] at this
    exact hne (List.length_eq_zero.mp this)
  rcases hs : sortFrames c.frames with _ | ⟨f0, tl⟩
  · exact absurd hs hsne
  refine ⟨f0.t, max 0 ((tl.getLastD f0).t - f0.t),
    (max 1 (⌊max 0 ((tl.getLastD f0).t - f0.t) * fps⌋ + 1)).toNat, ?_, ?_, rfl, ?_⟩
  · rw [List.headD_cons]
  · rw [List.getLastD_cons]
  · have hout : (resampleSkeleton c fps).frames =
        resampleGo (f0 :: tl) (f0.joints.map (fun kv => kv.1)) f0.t
          (max 0 ((tl.getLastD f0).t - f0.t))
          (((max 1 (⌊max 0 ((tl.getLastD f0).t - f0.t) * fps⌋ + 1)).toNat : ℚ) - 1) 0 0
          (max 1 (⌊max 0 ((tl.getLastD f0).t - f0.t) * fps⌋ + 1)).toNat := by
      simp only [resampleSkeleton, hs, List.getLastD_cons]
    rw [hout, resampleGo_times]
    refine List.map_congr_left ?_
    intro k _
    norm_num

theorem getJ_mk_map2 (t : ℚ) (l : List (String × Joint)) (g1 g2 : Joint → Joint)
    (k : String) :
    (Frame.mk t ((l.map (fun kv : String × Joint => (kv.1, g1 kv.2))).map
        (fun kv : String × Joint => (kv.1, g2 kv.2)))).getJ k =
      ((Frame.mk t l).getJ k).map (fun j => g2 (g1 j)) := by
  rw [getJ_mk_map, show Frame.mk t (l.map (fun kv : String × Joint => (kv.1, g1 kv.2))) =
    Frame.mk t (l.map (fun kv : String × Joint => (kv.1, g1 kv.2))) from rfl, getJ_mk_map]
  cases (Frame.mk t l).getJ k <;> rfl

/-! ## Claims -/

/-- C9: `canProceedMeaning` returns true iff the meaning value is
non-null, its intent is not the sentinel "unknown", and its confidence is
a finite number at or above the threshold. -/
theorem c9_canProceedMeaning_iff (m : Option Meaning) (minConf : ℚ) :
    canProceedMeaning m minConf = true ↔
      ∃ mm, m = some mm ∧ mm.intent ≠ "unknown" ∧
        ∃ q, mm.confidence = ENum.fin q ∧ minConf ≤ q := by
  cases m with
  | none => simp [canProceedMeaning]
  | some mm =>
    by_cases hi : mm.intent = "unknown"
    · simp [canProceedMeaning, hi]
    · cases hc : mm.confidence with
      | fin q => simp [canProceedMeaning, hi, hc, ENum.isFinite, ENum.geQ]
      | nan => simp [canProceedMeaning, hi, hc, ENum.isFinite]
      | posInf => simp [canProceedMeaning, hi, hc, ENum.isFinite]
      | negInf => simp [canProceedMeaning, hi, hc, ENum.isFinite]

/-- C3: `skeletonToBVH` signals the "No frames" error exactly on a
zero-frame clip, and returns an artifact string on every other clip. -/
theorem c3_emptyInput_iff (F : TransFns) (skel : Skeleton) (a b : Option ℚ) :
    (skeletonToBVH F skel a b = .error "No frames" ↔ skel.frames = []) ∧
      ((∃ s, skeletonToBVH F skel a b = .ok s) ↔ skel.frames ≠ []) := by
  cases h : skel.frames <;> simp [skeletonToBVH, h]

set_option maxRecDepth 8000 in
unseal Rat.ofScientific Rat.mul Rat.inv Rat.add Rat.sub in
/-- C1 fails as stated: with direction 0, intensity 1 and tempo 1 the
reconstruction output differs from the template resampled to 30 fps
(intensity 1 maps to factor 1.35 and tempo 1 to factor 1.4). -/
theorem c1_counterexample :
    (reconstructFromTemplate ratFns tmplC1 pIdentity).skeleton ≠
      resampleSkeleton tmplC1 30 := by
  decide

/-- C1 amended: the true identity parameters are intensity 6/13 (the
preimage of factor 1 under `lerp 0.7 1.35`) and tempo 1/2 (the preimage
of factor 1 under `lerp 0.6 1.4`); with direction 0 and any politeness
these make reconstruction agree exactly with resampling the template to
30 fps. -/
theorem c1_identity_amended (F : TransFns) (tmpl : Skeleton) (pol : ℚ)
    (hsin : F.sin 0 = 0) (hcos : F.cos 0 = 1) :
    (reconstructFromTemplate F tmpl ⟨0, 0, 0, 6/13, 1/2, pol⟩).skeleton =
      resampleSkeleton tmpl 30 := by
  have hIf : intensityFactorOf (6/13) = 1 := by
    norm_num [intensityFactorOf, lerp, clamp]
  have hTf : tempoFactorOf (1/2) = 1 := by
    norm_num [tempoFactorOf, lerp, clamp]
  have happly : ∀ r j : Joint,
      applyMeaningToJoint F 1 (clamp 0 (-1) 1 * 0.25) (clamp 0 (-0.2) 0.2 * 0.08)
        (clamp 0 (-0.2) 0.2 * 0.08) r j = j := by
    intro r j
    obtain ⟨jx, jy, jz⟩ := j
    have hc0 : clamp (0 : ℚ) (-1) 1 * 0.25 = 0 := by norm_num [clamp]
    have hs0 : clamp (0 : ℚ) (-0.2) 0.2 * 0.08 = 0 := by norm_num [clamp]
    rw [hc0, hs0]
    simp only [applyMeaningToJoint, rotate2D, hsin, hcos, Joint.mk.injEq]
    refine ⟨by ring, by ring, trivial⟩
  unfold reconstructFromTemplate
  simp only [hIf, hTf]
  cases hf : sortFrames tmpl.frames with
  | nil =>
    simp only [resampleSkeleton, hf]
  | cons f1 tl =>
    simp only [happly, Prod.mk.eta, List.map_id']
    rw [map_frame_t_id]
    refine resample_congr _ _ _ ?_
    show sortFrames (f1 :: tl) = sortFrames tmpl.frames
    rw [← hf, sortFrames_idem]

/-- Witness for `c1_identity_amended` at a concrete bundle and clip. -/
theorem c1_identity_witness :
    ratFns.sin 0 = 0 ∧ ratFns.cos 0 = 1 ∧
      (reconstructFromTemplate ratFns tmplC1 ⟨0, 0, 0, 6/13, 1/2, 0⟩).skeleton =
        resampleSkeleton tmplC1 30 :=
  ⟨rfl, rfl, c1_identity_amended ratFns tmplC1 0 rfl rfl⟩

unseal Rat.ofScientific Rat.mul Rat.inv Rat.add Rat.sub in
/-- C5 fails as stated: intensity is clamped to `[0, 1]`, so intensity 2
produces the very same output as intensity 1 — per-joint distances from
the root are equal, not strictly greater (the marker joint here sits at a
positive distance from a non-degenerate root). -/
theorem c5_counterexample :
    reconstructFromTemplate ratFns tmplC5 pC5a = reconstructFromTemplate ratFns tmplC5 pC5b ∧
      0 < sqDistJ ⟨0.7, 0.5, 0⟩ (rootOf (tmplC5.frames.headD dfltFrame)) := by
  exact ⟨by decide, by decide⟩

/-- C5 amended: intensities above 1 are clamped (they reproduce the
intensity-1 output exactly); within `[0, 1]` a strictly larger intensity
strictly increases each transformed joint's squared distance from the
transformed per-frame root in the spatial-transform stage, whenever the
joint's horizontal offset from the root is nonzero. -/
theorem c5_intensity_amended (F : TransFns) (i1 i2 θ shX shY : ℚ) (r j : Joint)
    (h1 : 0 ≤ i1) (h12 : i1 < i2) (h2 : i2 ≤ 1)
    (hxy : 0 < (j.x - r.x) ^ 2 + (j.y - r.y) ^ 2)
    (hpyth : F.sin θ ^ 2 + F.cos θ ^ 2 = 1) :
    sqDistJ (applyMeaningToJoint F (intensityFactorOf i1) θ shX shY r j)
        (applyMeaningToJoint F (intensityFactorOf i1) θ shX shY r r) <
      sqDistJ (applyMeaningToJoint F (intensityFactorOf i2) θ shX shY r j)
        (applyMeaningToJoint F (intensityFactorOf i2) θ shX shY r r) ∧
      ∀ i3 : ℚ, 1 < i3 → intensityFactorOf i3 = intensityFactorOf 1 := by
  have hexpand : ∀ fI : ℚ,
      sqDistJ (applyMeaningToJoint F fI θ shX shY r j)
        (applyMeaningToJoint F fI θ shX shY r r) =
        fI ^ 2 * ((j.x - r.x) ^ 2 + (j.y - r.y) ^ 2) * (F.sin θ ^ 2 + F.cos θ ^ 2) +
          (j.z - r.z) ^ 2 := by
    intro fI
    simp only [sqDistJ, applyMeaningToJoint, rotate2D]
    ring
  have hfac : ∀ i : ℚ, 0 ≤ i → i ≤ 1 → intensityFactorOf i = 0.7 + 0.65 * i := by
    intro i hi0 hi1
    rw [intensityFactorOf, clamp, min_eq_right hi1, max_eq_right hi0, lerp]
    norm_num
  constructor
  · rw [hexpand, hexpand, hpyth, mul_one, mul_one]
    have hfi1 : intensityFactorOf i1 = 0.7 + 0.65 * i1 := hfac i1 h1 (le_of_lt (lt_of_lt_of_le h12 h2))
    have hfi2 : intensityFactorOf i2 = 0.7 + 0.65 * i2 := hfac i2 (le_of_lt (lt_of_le_of_lt h1 h12)) h2
    rw [hfi1, hfi2]
    have hlt : (0.7 + 0.65 * i1 : ℚ) ^ 2 < (0.7 + 0.65 * i2) ^ 2 := by nlinarith
    have := mul_lt_mul_of_pos_right hlt hxy
    linarith
  · intro i3 hi3
    rw [intensityFactorOf, intensityFactorOf, clamp, clamp]
    rw [min_eq_left (le_of_lt hi3), min_self]

/-- Witness for `c5_intensity_amended`. -/
theorem c5_intensity_witness :
    ((0 : ℚ) ≤ 0 ∧ (0 : ℚ) < 1 ∧ (1 : ℚ) ≤ 1 ∧
      (0 : ℚ) < ((1 : ℚ) - 0) ^ 2 + ((0 : ℚ) - 0) ^ 2 ∧
      ratFns.sin 0 ^ 2 + ratFns.cos 0 ^ 2 = 1) ∧
    (sqDistJ (applyMeaningToJoint ratFns (intensityFactorOf 0) 0 0 0 ⟨0, 0, 0⟩ ⟨1, 0, 0⟩)
        (applyMeaningToJoint ratFns (intensityFactorOf 0) 0 0 0 ⟨0, 0, 0⟩ ⟨0, 0, 0⟩) <
      sqDistJ (applyMeaningToJoint ratFns (intensityFactorOf 1) 0 0 0 ⟨0, 0, 0⟩ ⟨1, 0, 0⟩)
        (applyMeaningToJoint ratFns (intensityFactorOf 1) 0 0 0 ⟨0, 0, 0⟩ ⟨0, 0, 0⟩) ∧
      ∀ i3 : ℚ, 1 < i3 → intensityFactorOf i3 = intensityFactorOf 1) :=
  ⟨⟨le_refl 0, by norm_num, le_refl 1, by norm_num, by norm_num [ratFns]⟩,
    c5_intensity_amended ratFns 0 1 0 0 0 ⟨0, 0, 0⟩ ⟨1, 0, 0⟩ (le_refl 0) (by norm_num)
      (le_refl 1) (by norm_num) (by norm_num [ratFns])⟩


set_option maxRecDepth 8000 in
unseal Rat.ofScientific Rat.mul Rat.inv Rat.add Rat.sub in
/-- C8: a clip with zero or one frame yields all-zero motion statistics
(duration, average speed and displacement, both normalized scalars, and
the net displacement vector) without error. -/
theorem c8_degenerate_zero (F : TransFns) (input : Skeleton)
    (h : input.frames.length ≤ 1) :
    (extractFeatures F input).motion.durationSec = 0 ∧
    (extractFeatures F input).motion.avgSpeed = 0 ∧
    (extractFeatures F input).motion.avgDisp = 0 ∧
    (extractFeatures F input).motion.speedNorm = 0 ∧
    (extractFeatures F input).motion.dispNorm = 0 ∧
    (extractFeatures F input).motion.netX = 0 ∧
    (extractFeatures F input).motion.netY = 0 ∧
    (extractFeatures F input).motion.netZ = 0 := by
  obtain ⟨o, fr⟩ := input
  rcases fr with _ | ⟨f, _ | ⟨g, t⟩⟩
  · exact ⟨rfl, rfl, rfl,
      (show (extractFeatures F ⟨o, []⟩).motion.speedNorm = clamp (0/1.2) 0 1 from rfl).trans
        clamp_zd12,
      (show (extractFeatures F ⟨o, []⟩).motion.dispNorm = clamp (0/0.08) 0 1 from rfl).trans
        clamp_zd008,
      rfl, rfl, rfl⟩
  · exact ⟨rfl, rfl, rfl,
      (show (extractFeatures F ⟨o, [f]⟩).motion.speedNorm = clamp (0/1.2) 0 1 from rfl).trans
        clamp_zd12,
      (show (extractFeatures F ⟨o, [f]⟩).motion.dispNorm = clamp (0/0.08) 0 1 from rfl).trans
        clamp_zd008,
      (show (extractFeatures F ⟨o, [f]⟩).motion.netX =
          (netOf (hipRootOf f) (hipRootOf f)).x from rfl).trans (by rw [netOf_self]),
      (show (extractFeatures F ⟨o, [f]⟩).motion.netY =
          (netOf (hipRootOf f) (hipRootOf f)).y from rfl).trans (by rw [netOf_self]),
      (show (extractFeatures F ⟨o, [f]⟩).motion.netZ =
          (netOf (hipRootOf f) (hipRootOf f)).z from rfl).trans (by rw [netOf_self])⟩
  · simp at h

/-- Witness for `c8_degenerate_zero` at a concrete 1-frame clip. -/
theorem c8_degenerate_witness :
    oneFrameClip.frames.length ≤ 1 ∧
      ((extractFeatures ratFns oneFrameClip).motion.durationSec = 0 ∧
       (extractFeatures ratFns oneFrameClip).motion.avgSpeed = 0 ∧
       (extractFeatures ratFns oneFrameClip).motion.avgDisp = 0 ∧
       (extractFeatures ratFns oneFrameClip).motion.speedNorm = 0 ∧
       (extractFeatures ratFns oneFrameClip).motion.dispNorm = 0 ∧
       (extractFeatures ratFns oneFrameClip).motion.netX = 0 ∧
       (extractFeatures ratFns oneFrameClip).motion.netY = 0 ∧
       (extractFeatures ratFns oneFrameClip).motion.netZ = 0) :=
  ⟨by decide, c8_degenerate_zero ratFns oneFrameClip (by decide)⟩

unseal Rat.ofScientific Rat.mul Rat.inv Rat.add Rat.sub in
/-- C4 fails as stated: for sorted frames at t = 5 and t = 10 and window
`[1, 2]`, the frame nearest both boundaries is the one at t = 5, so the
claimed fallback ("the two frames nearest the window's start/end
boundaries, deduplicated") would keep one frame; the code instead keeps
both frames (re-based to t = 0 and t = 5, the latter outside
`[0, end - start]`). -/
theorem c4_counterexample :
    (sliceSkeleton skC4 1 2).frames.length = 2 ∧
      ((sliceSkeleton skC4 1 2).frames.map (fun f => f.t)) = [0, 5] := by
  exact ⟨by decide, by decide⟩

/-- C4 amended: with sorted frames and a window `0 ≤ start ≤ end`, the
slice keeps exactly the frames with `start ≤ t ≤ end`, re-based so the
first kept frame is at t = 0 (timestamps then lie in `[0, end - start]`);
when no frame falls in the window it falls back to exactly two selected
frames: `a`, the latest frame at or before `start` (or else the earliest
frame), and `b`, the latest frame at or before `end` (or else the latest
frame) — the output is then literally `[a at t = 0]` if their timestamps
coincide (deduplication) and `[a at t = 0, b at t = b.t - a.t]`
otherwise, so it is non-empty, has at most two frames, and every output
frame carries the joints of an input frame. -/
theorem c4_slice_amended (input : Skeleton) (startSec endSec : ℚ)
    (hsort : input.frames.Pairwise frameLE)
    (h0 : 0 ≤ startSec) (hse : startSec ≤ endSec) :
    (input.frames.filter (fun f => decide (startSec ≤ f.t ∧ f.t ≤ endSec)) ≠ [] →
       (sliceSkeleton input startSec endSec).frames =
         (input.frames.filter (fun f => decide (startSec ≤ f.t ∧ f.t ≤ endSec))).map
           (fun f => { f with t := f.t -
             ((input.frames.filter (fun f => decide (startSec ≤ f.t ∧ f.t ≤ endSec))).headD
               dfltFrame).t }) ∧
       ∀ g ∈ (sliceSkeleton input startSec endSec).frames, 0 ≤ g.t ∧ g.t ≤ endSec - startSec) ∧
    (input.frames ≠ [] → (sliceSkeleton input startSec endSec).frames ≠ []) ∧
    (input.frames.filter (fun f => decide (startSec ≤ f.t ∧ f.t ≤ endSec)) = [] →
       input.frames ≠ [] →
       ∃ a ∈ input.frames, ∃ b ∈ input.frames,
         ((∃ f ∈ input.frames, f.t ≤ startSec) →
             a.t ≤ startSec ∧ ∀ f ∈ input.frames, f.t ≤ startSec → f.t ≤ a.t) ∧
         ((¬ ∃ f ∈ input.frames, f.t ≤ startSec) → ∀ f ∈ input.frames, a.t ≤ f.t) ∧
         ((∃ f ∈ input.frames, f.t ≤ endSec) →
             b.t ≤ endSec ∧ ∀ f ∈ input.frames, f.t ≤ endSec → f.t ≤ b.t) ∧
         ((¬ ∃ f ∈ input.frames, f.t ≤ endSec) → ∀ f ∈ input.frames, f.t ≤ b.t) ∧
         a.t ≤ b.t ∧
         (sliceSkeleton input startSec endSec).frames =
           (if b.t = a.t then [{ a with t := 0 }]
            else [{ a with t := 0 }, { b with t := b.t - a.t }])) := by
  have hs : max 0 startSec = startSec := max_eq_right h0
  have he : max startSec endSec = endSec := max_eq_right hse
  set M := input.frames.filter (fun f => decide (startSec ≤ f.t ∧ f.t ≤ endSec)) with hMdef
  have hMpw : M.Pairwise frameLE := hsort.filter _
  have hMs : ∀ f ∈ M, startSec ≤ f.t ∧ f.t ≤ endSec := by
    intro f hf
    have := List.of_mem_filter hf
    exact of_decide_eq_true this
  have hunf : sliceSkeleton input startSec endSec =
      (let use :=
         if M.isEmpty && !input.frames.isEmpty then
           match sortFrames input.frames with
           | [] => []
           | f0 :: rest =>
             dedupByT [lastLeFold (f0 :: rest) startSec f0,
               lastLeFold (f0 :: rest) endSec ((f0 :: rest).getLastD f0)]
         else M
       let baseT := match use.head? with
         | some f => f.t
         | none => startSec
       { input with frames := use.map (fun f => { f with t := max 0 (f.t - baseT) }) }) := by
    simp only [sliceSkeleton, hs, he, hMdef]
  refine ⟨?_, ?_, ?_⟩
  · -- main window case
    intro hne
    rcases hM2 : M with _ | ⟨m0, tl⟩
    · exact absurd hM2 hne
    have hMempty : M.isEmpty = false := by rw [hM2]; rfl
    have hout : (sliceSkeleton input startSec endSec).frames =
        M.map (fun f => { f with t := max 0 (f.t - m0.t) }) := by
      rw [hunf]
      simp only [hMempty, Bool.false_and, if_neg (Bool.false_ne_true), hM2]
      rfl
    have hm0M : m0 ∈ M := by rw [hM2]; exact List.mem_cons_self m0 tl
    have hmin : ∀ f ∈ M, m0.t ≤ f.t := by
      intro f hf
      rw [hM2] at hf
      rcases List.mem_cons.mp hf with rfl | hf2
      · exact le_refl _
      · exact (List.pairwise_cons.mp (hM2 ▸ hMpw)).1 f hf2
    constructor
    · rw [hout, hM2]
      refine List.map_congr_left ?_
      intro f hf
      have h1 : m0.t ≤ f.t := hmin f (hM2 ▸ hf)
      have h2 : max 0 (f.t - m0.t) = f.t - m0.t := max_eq_right (by linarith)
      rw [h2]
      simp
    · intro g hg
      rw [hout] at hg
      rcases List.mem_map.mp hg with ⟨f, hfM, rfl⟩
      refine ⟨le_max_left _ _, ?_⟩
      have h1 := hMs f hfM
      have h2 := hMs m0 hm0M
      exact max_le (by linarith [h1.1, h2.1, hse]) (by linarith [h1.2, h2.1])
  · -- non-empty preservation
    intro hin
    have hsne : sortFrames input.frames ≠ [] := by
      intro hcon
      have := congrArg List.length hcon
      rw [sortFrames, List.length_insertionSort] at this
      exact hin (List.length_eq_zero.mp this)
    have hinempty : input.frames.isEmpty = false := by
      rcases hfr : input.frames with _ | _
      · exact absurd hfr hin
      · rfl
    by_cases hM2 : M = []
    · rcases hsort2 : sortFrames input.frames with _ | ⟨f0, rest⟩
      · exact absurd hsort2 hsne
      have hMempty : M.isEmpty = true := by rw [hM2]; rfl
      have hcond : (M.isEmpty && !input.frames.isEmpty) = true := by
        rw [hMempty, hinempty]; rfl
      rw [hunf]
      simp only [if_pos hcond, hsort2, dedup_pair]
      by_cases hab : (lastLeFold (f0 :: rest) endSec ((f0 :: rest).getLastD f0)).t =
          (lastLeFold (f0 :: rest) startSec f0).t
      · rw [if_pos hab]; simp
      · rw [if_neg hab]; simp
    · have hMempty : M.isEmpty = false := by
        rcases hM3 : M with _ | _
        · exact absurd hM3 hM2
        · rfl
      rw [hunf]
      simp only [hMempty, Bool.false_and, if_neg (Bool.false_ne_true)]
      simp [hM2]
  · -- fallback characterization via the selection rule
    intro hM2 hin
    have hsf : sortFrames input.frames = input.frames := sortFrames_eq_of_sorted hsort
    rcases hfr : input.frames with _ | ⟨f0, rest⟩
    · exact absurd hfr hin
    have hsort2 : sortFrames input.frames = f0 :: rest := hsf.trans hfr
    have hpw : (f0 :: rest).Pairwise frameLE := hfr ▸ hsort
    have hMempty : M.isEmpty = true := by rw [hM2]; rfl
    have hinempty : input.frames.isEmpty = false := by rw [hfr]; rfl
    have hcond : (M.isEmpty && !input.frames.isEmpty) = true := by
      rw [hMempty, hinempty]; rfl
    set a := lastLeFold (f0 :: rest) startSec f0 with hadef
    set b := lastLeFold (f0 :: rest) endSec ((f0 :: rest).getLastD f0) with hbdef
    have hminHead : ∀ f ∈ f0 :: rest, f0.t ≤ f.t := by
      intro f hf
      rcases List.mem_cons.mp hf with rfl | hf2
      · exact le_refl _
      · exact (List.pairwise_cons.mp hpw).1 f hf2
    have haMem : a ∈ f0 :: rest := by
      rcases lastLeFold_mem (f0 :: rest) startSec f0 with h | h
      · rw [hadef, h]; exact List.mem_cons_self f0 rest
      · exact h
    have hbMem : b ∈ f0 :: rest := by
      rcases lastLeFold_mem (f0 :: rest) endSec ((f0 :: rest).getLastD f0) with h | h
      · rw [hbdef, h]; exact getLastD_mem_ne _ f0 (by simp)
      · exact h
    refine ⟨a, haMem, b, hbMem, ?_, ?_, ?_, ?_, ?_, ?_⟩
    · -- a is the latest frame at or before startSec, when one exists
      intro hex
      obtain ⟨_, r2, r3⟩ := lastLeFold_spec (f0 :: rest) startSec f0 hpw hex
      exact ⟨r2, r3⟩
    · -- otherwise a is the earliest frame
      intro hnex f hf
      have hnone : ∀ g ∈ f0 :: rest, ¬ g.t ≤ startSec := by
        intro g hg hgb
        exact hnex ⟨g, hg, hgb⟩
      have ha0 : a = f0 := lastLeFold_of_none (f0 :: rest) startSec f0 hnone
      rw [ha0]
      exact hminHead f hf
    · -- b is the latest frame at or before endSec, when one exists
      intro hex
      obtain ⟨_, r2, r3⟩ := lastLeFold_spec (f0 :: rest) endSec ((f0 :: rest).getLastD f0) hpw hex
      exact ⟨r2, r3⟩
    · -- otherwise b is the latest frame
      intro hnex f hf
      have hnone : ∀ g ∈ f0 :: rest, ¬ g.t ≤ endSec := by
        intro g hg hgb
        exact hnex ⟨g, hg, hgb⟩
      have hb0 : b = (f0 :: rest).getLastD f0 :=
        lastLeFold_of_none (f0 :: rest) endSec ((f0 :: rest).getLastD f0) hnone
      rw [hb0]
      exact getLastD_max (f0 :: rest) f0 hpw f hf
    · -- a.t ≤ b.t
      by_cases hES : ∃ f ∈ f0 :: rest, f.t ≤ startSec
      · obtain ⟨_, r2, _⟩ := lastLeFold_spec (f0 :: rest) startSec f0 hpw hES
        have hEE : ∃ f ∈ f0 :: rest, f.t ≤ endSec := by
          obtain ⟨g, hg, hgb⟩ := hES
          exact ⟨g, hg, le_trans hgb hse⟩
        obtain ⟨_, _, s3⟩ :=
          lastLeFold_spec (f0 :: rest) endSec ((f0 :: rest).getLastD f0) hpw hEE
        exact s3 a haMem (le_trans r2 hse)
      · have hnone : ∀ g ∈ f0 :: rest, ¬ g.t ≤ startSec := by
          intro g hg hgb
          exact hES ⟨g, hg, hgb⟩
        have ha0 : a = f0 := lastLeFold_of_none (f0 :: rest) startSec f0 hnone
        rw [ha0]
        exact hminHead b hbMem
    · -- the output is exactly the deduplicated, rebased pair
      have hab' : a.t ≤ b.t := by
        by_cases hES : ∃ f ∈ f0 :: rest, f.t ≤ startSec
        · obtain ⟨_, r2, _⟩ := lastLeFold_spec (f0 :: rest) startSec f0 hpw hES
          have hEE : ∃ f ∈ f0 :: rest, f.t ≤ endSec := by
            obtain ⟨g, hg, hgb⟩ := hES
            exact ⟨g, hg, le_trans hgb hse⟩
          obtain ⟨_, _, s3⟩ :=
            lastLeFold_spec (f0 :: rest) endSec ((f0 :: rest).getLastD f0) hpw hEE
          exact s3 a haMem (le_trans r2 hse)
        · have hnone : ∀ g ∈ f0 :: rest, ¬ g.t ≤ startSec := by
            intro g hg hgb
            exact hES ⟨g, hg, hgb⟩
          have ha0 : a = f0 := lastLeFold_of_none (f0 :: rest) startSec f0 hnone
          rw [ha0]
          exact hminHead b hbMem
      rw [hunf]
      simp only [if_pos hcond, hsort2, dedup_pair, ← hadef, ← hbdef]
      by_cases hab : b.t = a.t
      · rw [if_pos hab, if_pos hab]
        simp [sub_self]
      · rw [if_neg hab, if_neg hab]
        have hmax : max 0 (b.t - a.t) = b.t - a.t := max_eq_right (by linarith)
        simp [sub_self, hmax]

/-- Witness for `c4_slice_amended` at a concrete clip and window: frames
at t = 5, 10 and window `[1, 2]`. -/
theorem c4_slice_witness :
    (skC4.frames.Pairwise frameLE ∧ (0 : ℚ) ≤ 1 ∧ (1 : ℚ) ≤ 2 ∧
      skC4.frames.filter (fun f => decide ((1 : ℚ) ≤ f.t ∧ f.t ≤ 2)) = [] ∧
      skC4.frames ≠ []) ∧
    (∃ a ∈ skC4.frames, ∃ b ∈ skC4.frames,
      ((∃ f ∈ skC4.frames, f.t ≤ (1 : ℚ)) →
          a.t ≤ 1 ∧ ∀ f ∈ skC4.frames, f.t ≤ 1 → f.t ≤ a.t) ∧
      ((¬ ∃ f ∈ skC4.frames, f.t ≤ (1 : ℚ)) → ∀ f ∈ skC4.frames, a.t ≤ f.t) ∧
      ((∃ f ∈ skC4.frames, f.t ≤ (2 : ℚ)) →
          b.t ≤ 2 ∧ ∀ f ∈ skC4.frames, f.t ≤ 2 → f.t ≤ b.t) ∧
      ((¬ ∃ f ∈ skC4.frames, f.t ≤ (2 : ℚ)) → ∀ f ∈ skC4.frames, f.t ≤ b.t) ∧
      a.t ≤ b.t ∧
      (sliceSkeleton skC4 1 2).frames =
        (if b.t = a.t then [{ a with t := 0 }]
         else [{ a with t := 0 }, { b with t := b.t - a.t }])) :=
  ⟨⟨by decide, by norm_num, by norm_num, by decide, by decide⟩,
    (c4_slice_amended skC4 1 2 (by decide) (by norm_num) (by norm_num)).2.2 (by decide)
      (by decide)⟩

theorem quatFromTwoVectors_self (F : TransFns) (u : Vec3)
    (hsqrt1 : F.sqrt 1 = 1)
    (hsq : F.sqrt (vdot u u) * F.sqrt (vdot u u) = vdot u u) :
    quatFromTwoVectors F u u = qid := by
  by_cases hl : F.sqrt (vdot u u) < 1/100000000
  · have hnorm : vnorm F u = v0 := by rw [vnorm, vlen, if_pos hl]
    simp only [quatFromTwoVectors, hnorm]
    have hd0 : vdot v0 v0 = 0 := by norm_num [vdot, v0]
    rw [hd0]
    rw [if_neg (by norm_num), if_neg (by norm_num)]
    have hcr : vcross v0 v0 = v0 := by norm_num [vcross, v0]
    rw [hcr]
    simp only [qNormalize, v0]
    have harg : ((0 : ℚ) * 0 + 0 * 0 + 0 * 0 + (1 + 0) * (1 + 0)) = 1 := by norm_num
    rw [harg, hsqrt1]
    rw [if_neg (by norm_num)]
    simp [qid]
  · have hpos2 : (0 : ℚ) < F.sqrt (vdot u u) :=
      lt_of_lt_of_le (by norm_num) (not_lt.mp hl)
    have hnorm : vnorm F u = vmul u (1 / F.sqrt (vdot u u)) := by
      rw [vnorm, vlen, if_neg hl]
    simp only [quatFromTwoVectors, hnorm]
    set S := F.sqrt (vdot u u) with hSdef
    have hd : vdot (vmul u (1 / S)) (vmul u (1 / S)) = 1 := by
      have hD0 : vdot u u = S * S := hsq.symm
      have hne : S ≠ 0 := ne_of_gt hpos2
      simp only [vdot] at hD0
      simp only [vdot, vmul]
      have hstep : u.x * (1 / S) * (u.x * (1 / S)) + u.y * (1 / S) * (u.y * (1 / S)) +
          u.z * (1 / S) * (u.z * (1 / S)) =
          (u.x * u.x + u.y * u.y + u.z * u.z) / (S * S) := by
        field_simp
      rw [hstep, hD0]
      exact div_self (mul_ne_zero hne hne)
    rw [hd]
    rw [if_pos (by norm_num)]

unseal Rat.ofScientific Rat.mul Rat.inv Rat.add Rat.sub in
/-- C6 fails as stated for the basis-stabilized joints: for the Spine,
with the main-child (Chest) direction in the parent frame equal to its
rest direction but the shoulder line rotated about that axis, the
computed local rotation is a non-identity twist quaternion. -/
theorem c6_counterexample :
    mainChildOf "Spine" = some "Chest" ∧
      qRotate (qInv qid) (vsub (posC6 "Chest") (posC6 "Spine")) =
        vsub (restC6 "Chest") (restC6 "Spine") ∧
      localRot ratFns restC6 posC6 qid "Spine" ≠ qid := by
  refine ⟨by decide, by decide, by decide⟩

/-- C6 amended: for every non-root joint with a designated main child
other than the basis-stabilized joints (Spine, Chest, LeftShoulder,
RightShoulder — whose rotation also tracks a secondary pole axis), if the
main-child direction in the current frame expressed in the parent's
local frame equals the rest-pose direction, the computed local rotation
is the identity quaternion (given that the square-root stand-in is exact
at the two points it is consulted). -/
theorem c6_mainchild_identity (F : TransFns) (rest pos : String → Vec3) (parentQ : Quat)
    (joint child : String)
    (hchild : mainChildOf joint = some child)
    (hns : joint ≠ "Spine" ∧ joint ≠ "Chest" ∧ joint ≠ "LeftShoulder" ∧
      joint ≠ "RightShoulder")
    (heq : qRotate (qInv parentQ) (vsub (pos child) (pos joint)) =
      vsub (rest child) (rest joint))
    (hsqrt1 : F.sqrt 1 = 1)
    (hsq : F.sqrt (vdot (vsub (rest child) (rest joint)) (vsub (rest child) (rest joint))) *
        F.sqrt (vdot (vsub (rest child) (rest joint)) (vsub (rest child) (rest joint))) =
        vdot (vsub (rest child) (rest joint)) (vsub (rest child) (rest joint))) :
    localRot F rest pos parentQ joint = qid := by
  obtain ⟨h1, h2, h3, h4⟩ := hns
  simp only [localRot, hchild]
  rw [if_neg h1, if_neg h2, if_neg h3, if_neg h4]
  rw [heq]
  exact quatFromTwoVectors_self F _ hsqrt1 hsq

unseal Rat.ofScientific Rat.mul Rat.inv Rat.add Rat.sub in
/-- Witness for `c6_mainchild_identity` at a concrete rest pose equal to
the current pose. -/
theorem c6_mainchild_witness :
    (mainChildOf "LeftElbow" = some "LeftWrist" ∧
      qRotate (qInv qid) (vsub (restW "LeftWrist") (restW "LeftElbow")) =
        vsub (restW "LeftWrist") (restW "LeftElbow") ∧
      ratFns.sqrt 1 = 1) ∧
    localRot ratFns restW restW qid "LeftElbow" = qid :=
  ⟨⟨by decide, by decide, by decide⟩,
    c6_mainchild_identity ratFns restW restW qid "LeftElbow" "LeftWrist" (by decide)
      ⟨by decide, by decide, by decide, by decide⟩ (by decide) (by decide) (by decide)⟩

/-- The depth-first channel order is a fixed 57-node list, independent
of the rest pose. -/
theorem channelOrder_c (rest : String → Vec3) :
    (bvhHierarchy rest).2 =
      ["Hips", "Spine", "Chest", "Neck", "Head", "LeftShoulder", "LeftElbow", "LeftWrist",
       "LeftThumb_CMC", "LeftThumb_MCP", "LeftThumb_IP", "LeftThumb_TIP",
       "LeftIndex_MCP", "LeftIndex_PIP", "LeftIndex_DIP", "LeftIndex_TIP",
       "LeftMiddle_MCP", "LeftMiddle_PIP", "LeftMiddle_DIP", "LeftMiddle_TIP",
       "LeftRing_MCP", "LeftRing_PIP", "LeftRing_DIP", "LeftRing_TIP",
       "LeftPinky_MCP", "LeftPinky_PIP", "LeftPinky_DIP", "LeftPinky_TIP",
       "RightShoulder", "RightElbow", "RightWrist",
       "RightThumb_CMC", "RightThumb_MCP", "RightThumb_IP", "RightThumb_TIP",
       "RightIndex_MCP", "RightIndex_PIP", "RightIndex_DIP", "RightIndex_TIP",
       "RightMiddle_MCP", "RightMiddle_PIP", "RightMiddle_DIP", "RightMiddle_TIP",
       "RightRing_MCP", "RightRing_PIP", "RightRing_DIP", "RightRing_TIP",
       "RightPinky_MCP", "RightPinky_PIP", "RightPinky_DIP", "RightPinky_TIP",
       "LeftHip", "LeftKnee", "LeftAnkle", "RightHip", "RightKnee", "RightAnkle"] := rfl

set_option maxHeartbeats 2000000 in
set_option maxRecDepth 4000 in
/-- C7: every motion line lists channel values in the fixed depth-first
hierarchy order (root first, 57 nodes): the root contributes 6 values of
which the rotation triple is 0 0 0, every other joint 3 values
(angleZ, angleX, angleY), for 6 + 3·(N−1) = 174 values per line; each of
the non-finite channel values serializes as "0.000000"; and the artifact
carries one serialized line per frame. -/
theorem c7_motion_channels (F : TransFns) (skel : Skeleton) (scale : ℚ) (f : Frame) :
    ((bvhHierarchy (restOf skel scale)).2).length = 57 ∧
    (bvhHierarchy (restOf skel scale)).2.head? = some "Hips" ∧
    (frameValuesOf F skel scale f).length =
      6 + 3 * (((bvhHierarchy (restOf skel scale)).2).length - 1) ∧
    (frameValuesOf F skel scale f).get? 3 = some 0 ∧
    (frameValuesOf F skel scale f).get? 4 = some 0 ∧
    (frameValuesOf F skel scale f).get? 5 = some 0 ∧
    serializeChannel ENum.nan = "0.000000" ∧
    serializeChannel ENum.posInf = "0.000000" ∧
    serializeChannel ENum.negInf = "0.000000" ∧
    motionLineOf F skel scale f =
      String.intercalate " "
        ((frameValuesOf F skel scale f).map (fun n => serializeChannel (.fin n))) ∧
    motionLinesOf F skel scale = skel.frames.map (motionLineOf F skel scale) :=
  ⟨rfl, rfl, rfl, rfl, rfl, rfl, rfl, rfl, rfl, rfl, rfl⟩

/-- C10: the encoder emits exactly one motion line per input frame, the
"Frames:" header is the input frame count, and the frame time is `1/fps`
with `fps` the explicit option if given, else the clip's `fps` field,
else 15 — no temporal resampling happens. -/
theorem c10_frame_count (F : TransFns) (skel : Skeleton) (optsFps optsScale : Option ℚ)
    (h : skel.frames ≠ []) :
    (motionLinesOf F skel (optsScale.getD 200)).length = skel.frames.length ∧
    bvhFpsOf skel optsFps = optsFps.getD (skel.fps.getD 15) ∧
    skeletonToBVH F skel optsFps optsScale = .ok
      ("HIERARCHY\n" ++ (bvhHierarchy (restOf skel (optsScale.getD 200))).1 ++
       "\nMOTION\nFrames: " ++ toString skel.frames.length ++
       "\nFrame Time: " ++ toFixedQ (1 / bvhFpsOf skel optsFps) 8 ++ "\n" ++
       String.intercalate "\n" (motionLinesOf F skel (optsScale.getD 200)) ++ "\n") := by
  refine ⟨by simp [motionLinesOf], rfl, ?_⟩
  rcases hf : skel.frames with _ | ⟨f0, tl⟩
  · exact absurd hf h
  · simp only [skeletonToBVH, hf]

/-- Witness for `c10_frame_count` at a concrete clip. -/
theorem c10_frame_count_witness :
    oneFrameClip.frames ≠ [] ∧
      (motionLinesOf ratFns oneFrameClip 200).length = oneFrameClip.frames.length :=
  ⟨by decide, (c10_frame_count ratFns oneFrameClip none none (by decide)).1⟩

theorem c2_origin_aux (F : TransFns) (clip : Skeleton) (L : ℚ)
    (hne : clip.frames ≠ [])
    (hlh : ((clip.frames.headD dfltFrame).getJ (poseKey "LEFT_HIP")).isSome = true)
    (hrh : ((clip.frames.headD dfltFrame).getJ (poseKey "RIGHT_HIP")).isSome = true) :
    hipMidOf ((scaleClip (translateToHipOrigin clip)
        (shoulderScaleOf F (translateToHipOrigin clip) L)).frames.headD dfltFrame) =
      some ⟨0, 0, 0⟩ := by
  rcases hf : clip.frames with _ | ⟨f0, tl⟩
  · exact absurd hf hne
  rw [hf, List.headD_cons] at hlh hrh
  obtain ⟨lh, hlh2⟩ := Option.isSome_iff_exists.mp hlh
  obtain ⟨rh, hrh2⟩ := Option.isSome_iff_exists.mp hrh
  have hmid : hipMidOf f0 = some (midJ lh rh) := by
    unfold hipMidOf
    rw [hlh2, hrh2]
  set s := shoulderScaleOf F (translateToHipOrigin clip) L with hsdef
  have hhead : (scaleClip (translateToHipOrigin clip) s).frames.headD dfltFrame =
      Frame.mk f0.t ((f0.joints.map (fun kv : String × Joint =>
        (kv.1, (fun j : Joint => (⟨j.x - (midJ lh rh).x, j.y - (midJ lh rh).y,
          j.z - (midJ lh rh).z⟩ : Joint)) kv.2))).map (fun kv : String × Joint =>
        (kv.1, (fun j : Joint => (⟨j.x * s, j.y * s, j.z * s⟩ : Joint)) kv.2))) := by
    simp only [scaleClip, translateToHipOrigin, hf, List.headD_cons, List.map_cons, hmid,
      List.headD_cons]
    rfl
  rw [hhead]
  unfold hipMidOf
  rw [getJ_mk_map2 f0.t f0.joints
    (fun j : Joint => (⟨j.x - (midJ lh rh).x, j.y - (midJ lh rh).y,
      j.z - (midJ lh rh).z⟩ : Joint))
    (fun j : Joint => (⟨j.x * s, j.y * s, j.z * s⟩ : Joint)),
    getJ_mk_map2 f0.t f0.joints
    (fun j : Joint => (⟨j.x - (midJ lh rh).x, j.y - (midJ lh rh).y,
      j.z - (midJ lh rh).z⟩ : Joint))
    (fun j : Joint => (⟨j.x * s, j.y * s, j.z * s⟩ : Joint)),
    hlh2, hrh2]
  simp only [Option.map_some']
  simp only [midJ, Option.some.injEq, Joint.mk.injEq]
  refine ⟨by ring, by ring, by ring⟩

theorem c2_median_aux (F : TransFns) (clip : Skeleton) (L : ℚ)
    (hsq : F.sqrt (medianQ (clip.frames.filterMap sqShoulderWidth)) *
        F.sqrt (medianQ (clip.frames.filterMap sqShoulderWidth)) =
        medianQ (clip.frames.filterMap sqShoulderWidth))
    (hS : 0 < F.sqrt (medianQ (clip.frames.filterMap sqShoulderWidth)))
    (hL : 0 < L) :
    medianQ ((scaleClip (translateToHipOrigin clip)
        (shoulderScaleOf F (translateToHipOrigin clip) L)).frames.filterMap sqShoulderWidth) =
      L ^ 2 := by
  set m := medianQ (clip.frames.filterMap sqShoulderWidth) with hm
  set S := F.sqrt m with hSdef
  have hsval : shoulderScaleOf F (translateToHipOrigin clip) L = L / S := by
    rw [shoulderScaleOf, widths_translate]
  have hs2pos : 0 < (L / S) ^ 2 := by positivity
  rw [hsval, widths_scale, widths_translate]
  rw [medianQ_smul _ hs2pos, ← hm, ← hsq]
  have hSne : S ≠ 0 := ne_of_gt hS
  field_simp
  ring

/-- C2 (pre-pass modelled from the spec): conforming a clip with both hip
landmarks in its head frame and a positive square-rooted median squared
shoulder width translates the initial hip midpoint to the origin, makes
the median squared shoulder width exactly `L ^ 2` (so the median shoulder
width equals the calibration length `L`), keeps every original timestamp,
and resampling then yields an evenly spaced frame sequence covering the
conformed clip duration, with the code's count `max 1 (floor(dur*fps)+1)`. -/
theorem c2_normalize_prepass (F : TransFns) (clip : Skeleton) (L fpsOut : ℚ)
    (hne : clip.frames ≠ [])
    (hlh : ((clip.frames.headD dfltFrame).getJ (poseKey "LEFT_HIP")).isSome = true)
    (hrh : ((clip.frames.headD dfltFrame).getJ (poseKey "RIGHT_HIP")).isSome = true)
    (hsq : F.sqrt (medianQ (clip.frames.filterMap sqShoulderWidth)) *
        F.sqrt (medianQ (clip.frames.filterMap sqShoulderWidth)) =
        medianQ (clip.frames.filterMap sqShoulderWidth))
    (hS : 0 < F.sqrt (medianQ (clip.frames.filterMap sqShoulderWidth)))
    (hL : 0 < L) :
    hipMidOf ((scaleClip (translateToHipOrigin clip)
        (shoulderScaleOf F (translateToHipOrigin clip) L)).frames.headD dfltFrame) =
      some ⟨0, 0, 0⟩ ∧
    medianQ ((scaleClip (translateToHipOrigin clip)
        (shoulderScaleOf F (translateToHipOrigin clip) L)).frames.filterMap sqShoulderWidth) =
      L ^ 2 ∧
    (scaleClip (translateToHipOrigin clip)
        (shoulderScaleOf F (translateToHipOrigin clip) L)).frames.map (fun fr => fr.t) =
      clip.frames.map (fun fr => fr.t) ∧
    ∃ t0 dur cnt,
      t0 = ((sortFrames (scaleClip (translateToHipOrigin clip)
          (shoulderScaleOf F (translateToHipOrigin clip) L)).frames).headD dfltFrame).t ∧
      dur = max 0 (((sortFrames (scaleClip (translateToHipOrigin clip)
          (shoulderScaleOf F (translateToHipOrigin clip) L)).frames).getLastD dfltFrame).t
          - t0) ∧
      cnt = (max 1 (⌊dur * fpsOut⌋ + 1)).toNat ∧
      (normalizePrePass F clip L fpsOut).frames.map (fun fr => fr.t) =
        (List.range cnt).map (fun i : ℕ => t0 + ((i : ℚ) / ((cnt : ℚ) - 1)) * dur) := by
  refine ⟨c2_origin_aux F clip L hne hlh hrh, c2_median_aux F clip L hsq hS hL, ?_, ?_⟩
  · simp [scaleClip, translateToHipOrigin, List.map_map, Function.comp]
  · have hne' : (scaleClip (translateToHipOrigin clip)
        (shoulderScaleOf F (translateToHipOrigin clip) L)).frames ≠ [] := by
      simp only [scaleClip, translateToHipOrigin]
      simpa using hne
    exact resample_times_of_ne _ fpsOut hne'

set_option maxRecDepth 8000 in
unseal Rat.ofScientific Rat.mul Rat.inv Rat.add Rat.sub in
/-- Witness for `c2_normalize_prepass` at a concrete clip, bundle and
calibration length. -/
theorem c2_normalize_prepass_witness :
    (clipC2.frames ≠ [] ∧ 0 < (40 : ℚ)) ∧
      hipMidOf ((scaleClip (translateToHipOrigin clipC2)
          (shoulderScaleOf ratFns (translateToHipOrigin clipC2) 40)).frames.headD dfltFrame) =
        some ⟨0, 0, 0⟩ :=
  ⟨⟨by decide, by decide⟩,
    (c2_normalize_prepass ratFns clipC2 40 30 (by decide) (by decide) (by decide) (by decide)
      (by decide) (by decide)).1⟩

end Limen
